import Mathlib

/-!
# Verification of the contract-consistency checker (`src/verify-contracts.ts`)

This file gives a shallow embedding, in Lean 4, of the core of the
contract verifier: the data model (`ImportInfo`, `TypeDefinition`,
`PropertyInfo`, `ParsedContract`, `VerificationIssue`,
`VerificationReport`, `SharedPrimitives`), the Levenshtein-based name
similarity auditor, the DFS cycle detector, the markdown/code-fence
extractor, the four verification checks and the report generator.

Modelling conventions:
* JavaScript strings are Lean `String`s; `number` values arising from the
  similarity computation are embedded as `ℚ` (all inputs are exact small
  integers, so the rational value mirrors the floating-point one on the
  inputs exercised here).
* JavaScript `Map`s are association lists with `Map.set` semantics
  (insert-or-overwrite preserving insertion order); `Set`s are lists used
  through membership only.
* File-system reads (`fs.readFileSync`) are replaced by passing the file
  contents explicitly next to the path.
* The handful of regular-expression literals in the source are embedded
  as deterministic matching functions implementing the exact backtracking
  semantics of each pattern (each matcher is documented at its definition).
-/

namespace ContractVerifier

/-! ## Character classes used by the embedded regular expressions -/

/-- JavaScript `\s` (whitespace), restricted to the ASCII range. -/
def isJsSpace (c : Char) : Bool :=
  c = ' ' || c = '\t' || c = '\n' || c = '\r' || c = '\x0c' || c = '\x0b'

/-- JavaScript `\w`: `[A-Za-z0-9_]`. -/
def isWordChar (c : Char) : Bool :=
  c.isAlphanum || c = '_'

/-- First character of a JS identifier as used in `extractImports`:
`[a-zA-Z_$]`. -/
def isIdentStart (c : Char) : Bool :=
  c.isAlpha || c = '_' || c = '$'

/-- Subsequent character of a JS identifier: `[a-zA-Z0-9_$]`. -/
def isIdentChar (c : Char) : Bool :=
  c.isAlphanum || c = '_' || c = '$'

/-! ## JS string primitives

`split`, `startsWith`, `endsWith` and `toLowerCase` are re-implemented on
the character lists underlying `String` (the core `String` versions use
byte-position loops that do not reduce inside the kernel, which would
block evaluation of the concrete witnesses below). -/

/-- `s.startsWith(pre)`. -/
def jsStartsWith (s pre : String) : Bool :=
  pre.data.isPrefixOf s.data

/-- `s.endsWith(suf)`. -/
def jsEndsWith (s suf : String) : Bool :=
  suf.data.isSuffixOf s.data

/-- `s.toLowerCase()` (ASCII range, which covers every character class the
verifier manipulates). -/
def jsToLower (s : String) : String :=
  ⟨s.data.map Char.toLower⟩

/-- Worker for `jsSplit`; `fuel` bounds the number of steps. -/
def jsSplitGo (sep : List Char) : Nat → List Char → List Char → List (List Char)
  | 0, acc, cs => [acc.reverse ++ cs]
  | _ + 1, acc, [] => [acc.reverse]
  | fuel + 1, acc, c :: rest =>
    if sep.isPrefixOf (c :: rest) then
      acc.reverse :: jsSplitGo sep fuel [] ((c :: rest).drop sep.length)
    else jsSplitGo sep fuel (c :: acc) rest

/-- `s.split(sep)` for a non-empty literal separator. -/
def jsSplit (s sep : String) : List String :=
  (jsSplitGo sep.data (s.data.length + 1) [] s.data).map String.mk

/-! ## Data model (`Types and Interfaces` section of the source) -/

/-- `VerificationIssue.severity`: `'error' | 'warning'`. -/
inductive Severity where
  | error
  | warning
deriving DecidableEq, Repr

/-- `VerificationIssue.category`. -/
inductive Category where
  | «import»
  | naming
  | typeShape
  | circularDep
deriving DecidableEq, Repr

/-- `TypeDefinition.kind`: `'interface' | 'type' | 'enum' | 'const'`. -/
inductive TypeKind where
  | interface
  | typeAlias
  | enum
  | const
deriving DecidableEq, Repr

/-- The string the source uses for each kind (the literal union values). -/
def TypeKind.toStr : TypeKind → String
  | .interface => "interface"
  | .typeAlias => "type"
  | .enum => "enum"
  | .const => "const"

structure ImportInfo where
  name : String
  source : String
  line : Nat
deriving DecidableEq, Repr

structure PropertyInfo where
  name : String
  type : String
  optional : Bool
deriving DecidableEq, Repr

structure TypeDefinition where
  name : String
  kind : TypeKind
  properties : List PropertyInfo
  rawContent : String
  line : Nat
deriving DecidableEq, Repr

structure ServiceMethodParam where
  name : String
  type : String
  optional : Bool
deriving DecidableEq, Repr

structure ServiceMethod where
  name : String
  parameters : List ServiceMethodParam
  returnType : String
  line : Nat
deriving DecidableEq, Repr

structure ApiRoute where
  method : String
  path : String
  line : Nat
deriving DecidableEq, Repr

/-- `ParsedContract`. -/
structure ParsedContract where
  filePath : String
  name : String
  imports : List ImportInfo
  types : List TypeDefinition
  serviceMethods : List ServiceMethod
  apiRoutes : List ApiRoute
deriving DecidableEq, Repr

structure VerificationIssue where
  severity : Severity
  category : Category
  message : String
  file : String
  line : Option Nat
  suggestion : Option String
deriving DecidableEq, Repr

structure DependencyNode where
  name : String
  dependencies : List String
deriving DecidableEq, Repr

structure ReportStats where
  totalContracts : Nat
  totalTypes : Nat
  totalImports : Nat
  totalServiceMethods : Nat
  totalApiRoutes : Nat
deriving DecidableEq, Repr

/-- `VerificationReport` (the `timestamp: Date` field, pure wall-clock
metadata untouched by every check, is not embedded). -/
structure VerificationReport where
  primitivesFile : String
  contractFiles : List String
  issues : List VerificationIssue
  stats : ReportStats
  dependencyGraph : List DependencyNode
  passed : Bool
deriving DecidableEq, Repr

/-- `SharedPrimitives`: `types` is a JS `Map<string, TypeDefinition>`,
embedded as an association list with unique keys in insertion order. -/
structure SharedPrimitives where
  types : List (String × TypeDefinition)
  filePath : String
deriving DecidableEq, Repr

/-! ## JS `Map` operations on association lists -/

/-- `Map.set k v`: overwrite in place if the key exists (keeping its
insertion position), else append. -/
def assocSet {α : Type} (m : List (String × α)) (k : String) (v : α) :
    List (String × α) :=
  if m.any (fun p => p.1 = k) then
    m.map (fun p => if p.1 = k then (p.1, v) else p)
  else
    m ++ [(k, v)]

/-- `Map.get k` (`undefined` becomes `none`). -/
def assocGet {α : Type} (m : List (String × α)) (k : String) : Option α :=
  (m.find? (fun p => p.1 = k)).map (fun p => p.2)

/-- `Map.has k`. -/
def assocHas {α : Type} (m : List (String × α)) (k : String) : Bool :=
  m.any (fun p => p.1 = k)

/-- The pattern `if (!m.has(k)) m.set(k, []); m.get(k)!.push(v)` used when
grouping declarations by name. -/
def assocPush {α : Type} (m : List (String × List α)) (k : String) (v : α) :
    List (String × List α) :=
  if m.any (fun p => p.1 = k) then
    m.map (fun p => if p.1 = k then (p.1, p.2 ++ [v]) else p)
  else
    m ++ [(k, [v])]

/-! ## Levenshtein distance for fuzzy matching (`levenshteinDistance`,
`similarityRatio`, `findSimilarNames`) -/

/-- Inner loop of one row of the dynamic-programming matrix:
given the character `bc` (= `b[i-1]`), the value `diag` (= `m[i-1][j-1]`),
the current row value `left` (= `m[i][j-1]`), the rest of the previous row
(`m[i-1][j..]`) and the rest of `a`, produce `m[i][j..]`. -/
def levRow (bc : Char) : Nat → Nat → List Nat → List Char → List Nat
  | _, _, _, [] => []
  | _, _, [], _ :: _ => []
  | diag, left, up :: prevRest, ac :: aRest =>
    let cur := if bc = ac then diag else Nat.min (Nat.min diag left) up + 1
    cur :: levRow bc up cur prevRest aRest

/-- `levenshteinDistance(a, b)`: matrix built row by row; row `0` is
`0..a.length`; entry `(i, j)` is the diagonal value when
`b[i-1] === a[j-1]`, else `min(diag, left, up) + 1`; the result is
`matrix[b.length][a.length]`. -/
def levenshteinDistance (a b : String) : Nat :=
  let as := a.data
  let row0 : List Nat := List.range (as.length + 1)
  let final :=
    b.data.foldl
      (fun (acc : List Nat × Nat) bc =>
        let prevRow := acc.1
        let i := acc.2
        (i :: levRow bc (i - 1) i (prevRow.tailD []) as, i + 1))
      (row0, 1)
  final.1.getLastD 0

/-- `similarityRatio(a, b) = 1 - levenshteinDistance(a, b) / max(len a, len b)`
(and `1` when both strings are empty). -/
def similarityRatio (a b : String) : ℚ :=
  let maxLen := Nat.max a.data.length b.data.length
  if maxLen = 0 then 1
  else 1 - (levenshteinDistance a b : ℚ) / (maxLen : ℚ)

/-- `[...new Set(names)]`: deduplication keeping first occurrences. -/
def dedupFirst : List String → List String
  | [] => []
  | x :: xs => x :: (dedupFirst xs).filter (fun y => y ≠ x)

/-- The `[name1, name2].sort().join('|')` pair key used by `seenPairs`. -/
def pairKey (n1 n2 : String) : String :=
  if n1 ≤ n2 then n1 ++ "|" ++ n2 else n2 ++ "|" ++ n1

/-- The ordered index pairs `(i, j)`, `i < j`, of the nested loops of
`findSimilarNames`, realised directly on the deduplicated list. -/
def orderedPairs {α : Type} : List α → List (α × α)
  | [] => []
  | x :: xs => xs.map (fun y => (x, y)) ++ orderedPairs xs

/-- One iteration of the `findSimilarNames` inner loop body, threading the
`seenPairs` set and the accumulated `similar` array. -/
def fsnStep (threshold : ℚ)
    (st : List String × List (String × String × ℚ)) (p : String × String) :
    List String × List (String × String × ℚ) :=
  let n1 := p.1
  let n2 := p.2
  if n1 = n2 then st
  else
    let key := pairKey n1 n2
    if key ∈ st.1 then st
    else
      let ratio := similarityRatio (jsToLower n1) (jsToLower n2)
      if threshold ≤ ratio ∧ ratio < 1 then
        (key :: st.1, st.2 ++ [(n1, n2, ratio)])
      else st

/-- `findSimilarNames(names, threshold)`. -/
def findSimilarNames (names : List String) (threshold : ℚ) :
    List (String × String × ℚ) :=
  let uniqueNames := dedupFirst names
  ((orderedPairs uniqueNames).foldl (fsnStep threshold) ([], [])).2

/-! ## Graph cycle detection (`detectCycles`) -/

/-- `type Graph = Map<string, string[]>`. -/
def Graph : Type := List (String × List String)

/-- `graph.get(node) || []`. -/
def getAdj (g : Graph) (node : String) : List String :=
  match (List.find? (fun p => p.1 = node) g) with
  | some p => p.2
  | none => []

/-- The mutable state shared by the recursive `dfs` closure: the `visited`
set, the `recStack` set and the accumulated `cycles` array. -/
structure DfsState where
  visited : List String
  recStack : List String
  cycles : List (List String)

/-- `dfs(node, path)`: mark the node visited and on the recursion stack,
extend the path, fold the `for (const neighbor of neighbors)` loop over
the adjacency list — recursing into unvisited neighbors, and recording
`path.slice(path.indexOf(neighbor))` closed with the neighbor as one
cycle whenever a neighbor already on the recursion stack is found on the
current path — then pop the recursion stack.  `fuel` bounds the recursion
depth; since `dfs` recurses only into unvisited nodes, any fuel exceeding
the number of distinct node names makes the function total without
changing its value. -/
def dfsVisit (g : Graph) : Nat → String → List String → DfsState → DfsState
  | 0, _, _, s => s
  | fuel + 1, node, path0, s0 =>
    let s1 : DfsState :=
      { s0 with visited := node :: s0.visited, recStack := node :: s0.recStack }
    let path := path0 ++ [node]
    let s2 :=
      (getAdj g node).foldl
        (fun s nb =>
          if nb ∈ s.visited then
            if nb ∈ s.recStack then
              if nb ∈ path then
                { s with
                  cycles := s.cycles ++ [path.drop (path.indexOf nb) ++ [nb]] }
              else s
            else s
          else dfsVisit g fuel nb path s)
        s1
    { s2 with recStack := s2.recStack.erase node }

/-- Fuel certainly exceeding the number of distinct nodes reachable by the
traversal: every map key plus every adjacency entry, plus one. -/
def graphFuel (g : Graph) : Nat :=
  (List.foldl (fun acc p => acc + 1 + p.2.length) 0 g) + 1

/-- `detectCycles(graph)`: run `dfs` from every not-yet-visited key in
insertion order and return the accumulated cycles. -/
def detectCycles (g : Graph) : List (List String) :=
  let final :=
    List.foldl
      (fun (s : DfsState) (p : String × List String) =>
        if p.1 ∈ s.visited then s
        else dfsVisit g (graphFuel g) p.1 [] s)
      ⟨[], [], []⟩ g
  final.cycles

/-! ## Embedded regular-expression machinery

Each regex literal of the source is embedded as a deterministic matcher
`List Char → Option (length consumed × captured groups)` trying to match
at the head of the given suffix, together with a generic scan driver that
reproduces the `while ((match = re.exec(code)) !== null)` loop: try every
start position from left to right and resume after each match. -/

/-- Match a literal string. -/
def matchLit (w : String) (cs : List Char) : Option (List Char) :=
  if w.data.isPrefixOf cs then some (cs.drop w.data.length) else none

/-- Greedy `\s*`. -/
def wsStar (cs : List Char) : List Char :=
  cs.dropWhile isJsSpace

/-- Greedy `\s+` (at least one whitespace character). -/
def wsPlus (cs : List Char) : Option (List Char) :=
  if (cs.takeWhile isJsSpace).isEmpty then none else some (cs.dropWhile isJsSpace)

/-- Greedy `p+`: a non-empty run of characters satisfying `p`, returning the
run and the rest. -/
def runPlus (p : Char → Bool) (cs : List Char) : Option (List Char × List Char) :=
  let t := cs.takeWhile p
  if t.isEmpty then none else some (t, cs.drop t.length)

/-- Greedy `\s*([^X]+)` followed by nothing: the usual tail of the source's
patterns (`\s*([^;]+);`, `\s*([^,]+)`).  The whitespace run is consumed
first; if the remaining run up to the stop character is empty but the
whitespace run is not, the regex backtracks one step and the capture is
the last whitespace character. -/
def wsThenRun1 (stop : Char → Bool) (cs : List Char) :
    Option (List Char × List Char) :=
  let w := cs.takeWhile isJsSpace
  let rest := cs.drop w.length
  let r := rest.takeWhile (fun c => !stop c)
  if !r.isEmpty then some (r, rest.drop r.length)
  else if !w.isEmpty then some ([w.getLastD ' '], rest)
  else none

/-- The scan driver for a global regex: at each position try `matchAt`; on a
match, record `(index, length, groups)` and continue after it (`lastIndex`
semantics); otherwise advance one character.  `fuel` is the remaining
string length, so the scan is total. -/
def scanGo {α : Type} (matchAt : List Char → Option (Nat × α)) :
    Nat → List Char → Nat → List (Nat × Nat × α)
  | 0, _, _ => []
  | _ + 1, [], _ => []
  | fuel + 1, c :: rest, idx =>
    match matchAt (c :: rest) with
    | some (len, a) =>
      let step := Nat.max len 1
      (idx, len, a) :: scanGo matchAt fuel ((c :: rest).drop step) (idx + step)
    | none => scanGo matchAt fuel rest (idx + 1)

/-- All matches of a global regex over a string, with start indices. -/
def scanMatches {α : Type} (matchAt : List Char → Option (Nat × α))
    (code : String) : List (Nat × Nat × α) :=
  scanGo matchAt (code.data.length + 1) code.data 0

/-- `(beforeMatch.match(/\n/g) || []).length`: newline count before an
index. -/
def lineOffsetAt (code : String) (idx : Nat) : Nat :=
  (code.data.take idx).count '\n'

/-! ## String utilities mirroring the JS methods used by the extractor -/

/-- JS `String.prototype.trim` (ASCII whitespace). -/
def jsTrim (s : String) : String :=
  ⟨((s.data.dropWhile isJsSpace).reverse.dropWhile isJsSpace).reverse⟩

/-- `.replace(/\s+/g, ' ')`: collapse every whitespace run to one space. -/
def collapseWs : Nat → List Char → List Char
  | 0, cs => cs
  | _ + 1, [] => []
  | fuel + 1, c :: rest =>
    if isJsSpace c then ' ' :: collapseWs fuel (rest.dropWhile isJsSpace)
    else c :: collapseWs fuel rest

/-- `.replace(/\/\/[^\n]*/g, '')`: delete line comments (keeping the
newline). -/
def stripLineComments : Nat → List Char → List Char
  | 0, cs => cs
  | _ + 1, [] => []
  | fuel + 1, '/' :: '/' :: rest =>
    stripLineComments fuel (rest.dropWhile (fun c => c ≠ '\n'))
  | fuel + 1, c :: rest => c :: stripLineComments fuel rest

/-- The rest of the input after the first `*/`, if any. -/
def findCloseCC : List Char → Option (List Char)
  | [] => none
  | '*' :: '/' :: rest => some rest
  | _ :: rest => findCloseCC rest

/-- `.replace(/\/\*[\s\S]*?\*\//g, '')`: delete block comments; an
unterminated `/*` does not match and is kept verbatim. -/
def stripBlockComments : Nat → List Char → List Char
  | 0, cs => cs
  | _ + 1, [] => []
  | fuel + 1, '/' :: '*' :: rest =>
    match findCloseCC rest with
    | some rest' => stripBlockComments fuel rest'
    | none => '/' :: stripBlockComments fuel ('*' :: rest)
  | fuel + 1, c :: rest => c :: stripBlockComments fuel rest

/-- `/^[a-zA-Z_$][a-zA-Z0-9_$]*/.test(s)`: the string starts with an
identifier-start character (the unanchored tail never fails). -/
def testIdentPrefix (s : String) : Bool :=
  match s.data with
  | c :: _ => isIdentStart c
  | [] => false

/-- `/^[a-zA-Z_$][a-zA-Z0-9_$]*$/.test(s)`: full identifier. -/
def isFullIdent (s : String) : Bool :=
  match s.data with
  | c :: rest => isIdentStart c && rest.all isIdentChar
  | [] => false

/-- `/\s+as\s+\w+/` matched at the head of the input; returns the rest
after the match. -/
def matchAsAt (cs : List Char) : Option (List Char) := do
  let r1 ← wsPlus cs
  let r2 ← matchLit "as" r1
  let r3 ← wsPlus r2
  let (_, r4) ← runPlus isWordChar r3
  some r4

/-- `.replace(/\s+as\s+\w+/, '')`: delete the first `as`-alias clause. -/
def replaceAsGo : Nat → List Char → List Char
  | 0, cs => cs
  | _ + 1, [] => []
  | fuel + 1, c :: rest =>
    match matchAsAt (c :: rest) with
    | some r => r
    | none => c :: replaceAsGo fuel rest

/-- First element on which `f` succeeds (used for regex alternations). -/
def pickFirst {α β : Type} (f : α → Option β) : List α → Option β
  | [] => none
  | x :: xs =>
    match f x with
    | some b => some b
    | none => pickFirst f xs

/-- Leftmost start position of a non-global regex: try the matcher at every
suffix from the left. -/
def findFirstMatch {α : Type} (f : List Char → Option α) : List Char → Option α
  | [] => f []
  | c :: rest =>
    match f (c :: rest) with
    | some a => some a
    | none => findFirstMatch f rest

/-- The characters before the first occurrence of `pat` (a lazy `[^]*?`
followed by the literal `pat`). -/
def firstUpTo (pat : String) : List Char → Option (List Char)
  | [] => if pat.data.isEmpty then some [] else none
  | c :: rest =>
    if pat.data.isPrefixOf (c :: rest) then some []
    else (firstUpTo pat rest).map (fun l => c :: l)

/-! ## `extractImports` -/

/-- Matcher for `/import\s*\{([^}]+)\}\s*from\s*['"]([^'"]+)['"]/gs` at the
head of the input; yields the consumed length and the two capture groups
(import list, module source).  Every quantified piece stops at a character
the following literal requires, so the backtracking search is
deterministic. -/
def importMatchAt (cs : List Char) : Option (Nat × String × String) := do
  let r1 ← matchLit "import" cs
  let r2 := wsStar r1
  let r3 ← matchLit "\x7b" r2
  let (g1, r4) ← runPlus (fun c => c ≠ '\x7d') r3
  let r5 ← matchLit "\x7d" r4
  let r6 := wsStar r5
  let r7 ← matchLit "from" r6
  let r8 := wsStar r7
  match r8 with
  | q :: r9 =>
    if q = '\x27' ∨ q = '"' then do
      let (g2, r10) ← runPlus (fun c => c ≠ '\x27' && c ≠ '"') r9
      match r10 with
      | q2 :: r11 =>
        if q2 = '\x27' ∨ q2 = '"' then
          some (cs.length - r11.length, ⟨g1⟩, ⟨g2⟩)
        else none
      | [] => none
    else none
  | [] => none

/-- `extractImports(code, startLine)`. -/
def extractImports (code : String) (startLine : Nat) : List ImportInfo :=
  (scanMatches (fun cs => importMatchAt cs) code).flatMap (fun m =>
    let idx := m.1
    let g1 := m.2.2.1
    let source := m.2.2.2
    let lineOffset := lineOffsetAt code idx
    let importContent : List Char :=
      stripBlockComments (g1.data.length + 1)
        (stripLineComments (g1.data.length + 1) g1.data)
    let importedItems :=
      (((jsSplit (String.mk importContent) ",").map jsTrim).filter
            (fun s => s ≠ "")).map
          (fun s => String.mk (collapseWs (s.data.length + 1) s.data))
        |>.filter testIdentPrefix
    importedItems.filterMap (fun name =>
      let cleanName := jsTrim ⟨replaceAsGo (name.data.length + 1) name.data⟩
      if cleanName ≠ "" ∧ isFullIdent cleanName then
        some { name := cleanName, source := source, line := startLine + lineOffset }
      else none))

/-! ## `extractTypes` and friends -/

/-- Optional `(?:<[^>]+>)?`. -/
def matchOptGeneric (cs : List Char) : List Char :=
  match cs with
  | '<' :: rest =>
    match runPlus (fun c => c ≠ '>') rest with
    | some (_, r) =>
      match matchLit ">" r with
      | some r2 => r2
      | none => cs
    | none => cs
  | _ => cs

/-- Optional `(?:\s+extends\s+[^{]+)?`. -/
def matchOptExtends (cs : List Char) : List Char :=
  match (do
    let r1 ← wsPlus cs
    let r2 ← matchLit "extends" r1
    let r3 ← wsPlus r2
    let (_, r4) ← runPlus (fun c => c ≠ '\x7b') r3
    pure r4 : Option (List Char)) with
  | some r => r
  | none => cs

/-- Matcher for the interface regex
`/export\s+interface\s+(\w+)(?:<[^>]+>)?(?:\s+extends\s+[^{]+)?\s*\{([^}]*(?:\{[^}]*\}[^}]*)*)\}/gs`.
Because `[^}]*` runs up to the first `}` and the starred alternative
requires a `{` exactly where a `}` stands, the first overall success
always closes the body at the first `}` after the opening brace (and the
pattern fails when no `}` follows), which is what this matcher computes. -/
def interfaceMatchAt (cs : List Char) : Option (Nat × String × String) := do
  let r1 ← matchLit "export" cs
  let r2 ← wsPlus r1
  let r3 ← matchLit "interface" r2
  let r4 ← wsPlus r3
  let (nm, r5) ← runPlus isWordChar r4
  let r6 := matchOptGeneric r5
  let r7 := matchOptExtends r6
  let r8 := wsStar r7
  let r9 ← matchLit "\x7b" r8
  let body := r9.takeWhile (fun c => c ≠ '\x7d')
  let r10 ← matchLit "\x7d" (r9.drop body.length)
  some (cs.length - r10.length, ⟨nm⟩, ⟨body⟩)

/-- Matcher for `/export\s+type\s+(\w+)(?:<[^>]+>)?\s*=\s*([^;]+);/g`. -/
def typeAliasMatchAt (cs : List Char) : Option (Nat × String) := do
  let r1 ← matchLit "export" cs
  let r2 ← wsPlus r1
  let r3 ← matchLit "type" r2
  let r4 ← wsPlus r3
  let (nm, r5) ← runPlus isWordChar r4
  let r6 := matchOptGeneric r5
  let r7 := wsStar r6
  let r8 ← matchLit "=" r7
  let (_, r9) ← wsThenRun1 (fun c => c = ';') r8
  let r10 ← matchLit ";" r9
  some (cs.length - r10.length, ⟨nm⟩)

/-- Matcher for `/export\s+enum\s+(\w+)\s*\{([^}]+)\}/g`. -/
def enumMatchAt (cs : List Char) : Option (Nat × String × String) := do
  let r1 ← matchLit "export" cs
  let r2 ← wsPlus r1
  let r3 ← matchLit "enum" r2
  let r4 ← wsPlus r3
  let (nm, r5) ← runPlus isWordChar r4
  let r6 := wsStar r5
  let r7 ← matchLit "\x7b" r6
  let (body, r8) ← runPlus (fun c => c ≠ '\x7d') r7
  let r9 ← matchLit "\x7d" r8
  some (cs.length - r9.length, ⟨nm⟩, ⟨body⟩)

/-- Matcher for `/export\s+const\s+(\w+)\s*=\s*\{/g`. -/
def constMatchAt (cs : List Char) : Option (Nat × String) := do
  let r1 ← matchLit "export" cs
  let r2 ← wsPlus r1
  let r3 ← matchLit "const" r2
  let r4 ← wsPlus r3
  let (nm, r5) ← runPlus isWordChar r4
  let r6 := wsStar r5
  let r7 ← matchLit "=" r6
  let r8 := wsStar r7
  let r9 ← matchLit "\x7b" r8
  some (cs.length - r9.length, ⟨nm⟩)

/-- Matcher for the property regex `/(\w+)(\?)?:\s*([^;]+);/g`. -/
def propMatchAt (cs : List Char) : Option (Nat × PropertyInfo) := do
  let (nm, r1) ← runPlus isWordChar cs
  let (opt, r2) :=
    match r1 with
    | '?' :: rest => (true, rest)
    | _ => (false, r1)
  let r3 ← matchLit ":" r2
  let (ty, r4) ← wsThenRun1 (fun c => c = ';') r3
  let r5 ← matchLit ";" r4
  some (cs.length - r5.length,
    { name := ⟨nm⟩, type := jsTrim ⟨ty⟩, optional := opt })

/-- `extractProperties(body)`. -/
def extractProperties (body : String) : List PropertyInfo :=
  (scanMatches propMatchAt body).map (fun m => m.2.2)

/-- The enum-member extraction:
`body.split(',').map(v => v.trim().split('=')[0].trim()).filter(nonempty)`,
each member becoming a property with type `'enum-value'`. -/
def enumValuesOf (body : String) : List PropertyInfo :=
  (((jsSplit body ",").map
        (fun v => jsTrim ((jsSplit (jsTrim v) "=").headD ""))).filter
      (fun n => n ≠ "")).map
    (fun n => { name := n, type := "enum-value", optional := false })

/-- `extractTypes(code, startLine)`: the four scans run in source order
(interfaces, type aliases, enums, const groups), concatenating their
results. -/
def extractTypes (code : String) (startLine : Nat) : List TypeDefinition :=
  let ifaces :=
    (scanMatches interfaceMatchAt code).map (fun m =>
      { name := m.2.2.1
        kind := TypeKind.interface
        properties := extractProperties m.2.2.2
        rawContent := ⟨(code.data.drop m.1).take m.2.1⟩
        line := startLine + lineOffsetAt code m.1 })
  let aliases :=
    (scanMatches typeAliasMatchAt code).map (fun m =>
      { name := m.2.2
        kind := TypeKind.typeAlias
        properties := []
        rawContent := ⟨(code.data.drop m.1).take m.2.1⟩
        line := startLine + lineOffsetAt code m.1 })
  let enums :=
    (scanMatches enumMatchAt code).map (fun m =>
      { name := m.2.2.1
        kind := TypeKind.enum
        properties := enumValuesOf m.2.2.2
        rawContent := ⟨(code.data.drop m.1).take m.2.1⟩
        line := startLine + lineOffsetAt code m.1 })
  let consts :=
    (scanMatches constMatchAt code).map (fun m =>
      { name := m.2.2
        kind := TypeKind.const
        properties := []
        rawContent := ⟨(code.data.drop m.1).take m.2.1⟩
        line := startLine + lineOffsetAt code m.1 })
  ifaces ++ aliases ++ enums ++ consts

/-! ## `extractServiceMethods`, `extractParameters`, `extractApiRoute` -/

/-- Matcher for `/export\s+interface\s+I\w+Service\s*\{([^]*?)\n\}/`: the
word run after `I` must end in `Service` with at least one character
before it (the regex literal `Service` must be followed by `\s*\{`, which
fails on a word character), and the lazy body runs to the first `"\n}"`. -/
def serviceHeaderMatchAt (cs : List Char) : Option String := do
  let r1 ← matchLit "export" cs
  let r2 ← wsPlus r1
  let r3 ← matchLit "interface" r2
  let r4 ← wsPlus r3
  let r5 ← matchLit "I" r4
  let (run, r6) ← runPlus isWordChar r5
  if "Service".data.isSuffixOf run ∧ "Service".data.length < run.length then
    let r7 := wsStar r6
    let r8 ← matchLit "\x7b" r7
    let body ← firstUpTo "\n\x7d" r8
    some ⟨body⟩
  else none

/-- Matcher for the parameter regex `/(\w+)(\?)?:\s*([^,]+)/g`. -/
def paramMatchAt (cs : List Char) : Option (Nat × ServiceMethodParam) := do
  let (nm, r1) ← runPlus isWordChar cs
  let (opt, r2) :=
    match r1 with
    | '?' :: rest => (true, rest)
    | _ => (false, r1)
  let r3 ← matchLit ":" r2
  let (ty, r4) ← wsThenRun1 (fun c => c = ',') r3
  some (cs.length - r4.length,
    { name := ⟨nm⟩, type := jsTrim ⟨ty⟩, optional := opt })

/-- `extractParameters(paramsStr)`. -/
def extractParameters (paramsStr : String) : List ServiceMethodParam :=
  if jsTrim paramsStr = "" then []
  else (scanMatches paramMatchAt paramsStr).map (fun m => m.2.2)

/-- Matcher for the method regex `/(\w+)\s*\(([^)]*)\)\s*:\s*([^;]+);/g`. -/
def methodMatchAt (cs : List Char) : Option (Nat × String × String × String) := do
  let (nm, r1) ← runPlus isWordChar cs
  let r2 := wsStar r1
  let r3 ← matchLit "(" r2
  let params := r3.takeWhile (fun c => c ≠ ')')
  let r4 ← matchLit ")" (r3.drop params.length)
  let r5 := wsStar r4
  let r6 ← matchLit ":" r5
  let (rt, r7) ← wsThenRun1 (fun c => c = ';') r6
  let r8 ← matchLit ";" r7
  some (cs.length - r8.length, ⟨nm⟩, ⟨params⟩, jsTrim ⟨rt⟩)

/-- `extractServiceMethods(code, startLine)`: find the first
`I...Service` interface, then scan its body for method signatures; the
recorded line offset counts newlines inside the body before the method
(exactly as the source computes it). -/
def extractServiceMethods (code : String) (startLine : Nat) : List ServiceMethod :=
  match findFirstMatch serviceHeaderMatchAt code.data with
  | none => []
  | some body =>
    (scanMatches methodMatchAt body).map (fun m =>
      { name := m.2.2.1
        parameters := extractParameters m.2.2.2.1
        returnType := m.2.2.2.2
        line := startLine + lineOffsetAt body m.1 })

def apiRouteMethods : List String := ["GET", "POST", "PUT", "PATCH", "DELETE"]

/-- Matcher for `/^###\s+(GET|POST|PUT|PATCH|DELETE)\s+(\S+)/` applied to a
single line. -/
def extractApiRoute (line : String) (lineNum : Nat) : Option ApiRoute := do
  let r1 ← matchLit "###" line.data
  let r2 ← wsPlus r1
  let (m, p) ←
    pickFirst (fun meth => do
        let r3 ← matchLit meth r2
        let r4 ← wsPlus r3
        let (p, _) ← runPlus (fun c => !isJsSpace c) r4
        some (meth, String.mk p))
      apiRouteMethods
  some { method := m, path := p, line := lineNum }

/-! ## `extractContractName` -/

/-- Can the remainder after the lazy group close the title pattern
(`(?:\s+Contract)?$`)? -/
def titleTail (rest : List Char) : Bool :=
  rest.isEmpty ||
    (!(rest.takeWhile isJsSpace).isEmpty &&
      rest.dropWhile isJsSpace = "Contract".data)

/-- The lazy group `(.+?)` of the title regex: the shortest non-empty
prefix whose remainder satisfies `titleTail`. -/
def titleLazy : List Char → Option (List Char)
  | [] => none
  | c :: rest =>
    if titleTail rest then some [c]
    else (titleLazy rest).map (fun p => c :: p)

/-- `/^#\s+(.+?)(?:\s+Contract)?$/m` applied per line. -/
def titleLineMatch (line : String) : Option String := do
  let r1 ← matchLit "#" line.data
  let r2 ← wsPlus r1
  let p ← titleLazy r2
  some ⟨p⟩

/-- `.replace(/\s+Domain$/, '')`. -/
def stripDomainSuffix (s : List Char) : List Char :=
  if "Domain".data.isSuffixOf s then
    let pre := s.take (s.length - 6)
    if !(pre.reverse.takeWhile isJsSpace).isEmpty then
      (pre.reverse.dropWhile isJsSpace).reverse
    else s
  else s

/-- Strip a trailing `-CONTRACT` case-insensitively (the `i`-flagged
anchored replace in `extractContractName`). -/
def stripContractSuffixCI (s : String) : String :=
  if 9 ≤ s.data.length ∧
      (s.data.drop (s.data.length - 9)).map Char.toLower = "-contract".data then
    ⟨s.data.take (s.data.length - 9)⟩
  else s

/-- `extractContractName(content, filePath)`. -/
def extractContractName (content filePath : String) : String :=
  match (jsSplit content "\n").findSome? titleLineMatch with
  | some t => jsTrim ⟨stripDomainSuffix t.data⟩
  | none =>
    let basename := (jsSplit filePath "/").getLastD filePath
    let base :=
      if jsEndsWith basename ".md" then
        String.mk (basename.data.take (basename.data.length - 3))
      else basename
    ⟨(stripContractSuffixCI base).data.map (fun c => if c = '-' then ' ' else c)⟩

/-! ## `parseContract` and `parseSharedPrimitives`

The file read (`fs.readFileSync`) is replaced by passing the document
content explicitly next to its path. -/

/-- The per-line mutable state of the `parseContract` loop. -/
structure ParseAcc where
  inCodeBlock : Bool
  codeBlockContent : String
  codeBlockStartLine : Nat
  imports : List ImportInfo
  types : List TypeDefinition
  serviceMethods : List ServiceMethod
  apiRoutes : List ApiRoute

/-- One iteration of the `parseContract` line loop. -/
def parseLineStep (acc : ParseAcc) (lineNum : Nat) (line : String) : ParseAcc :=
  let t := jsTrim line
  if jsStartsWith t "\x60\x60\x60typescript" || jsStartsWith t "\x60\x60\x60ts" then
    { acc with inCodeBlock := true, codeBlockContent := "",
               codeBlockStartLine := lineNum }
  else if t = "\x60\x60\x60" ∧ acc.inCodeBlock then
    { acc with
      inCodeBlock := false
      imports := acc.imports ++
        extractImports acc.codeBlockContent acc.codeBlockStartLine
      types := acc.types ++
        extractTypes acc.codeBlockContent acc.codeBlockStartLine
      serviceMethods := acc.serviceMethods ++
        extractServiceMethods acc.codeBlockContent acc.codeBlockStartLine }
  else
    let acc :=
      if acc.inCodeBlock then
        { acc with codeBlockContent := acc.codeBlockContent ++ line ++ "\n" }
      else acc
    match extractApiRoute line lineNum with
    | some r => { acc with apiRoutes := acc.apiRoutes ++ [r] }
    | none => acc

/-- `parseContract(filePath)` on explicit content. -/
def parseContractContent (filePath content : String) : ParsedContract :=
  let lines := jsSplit content "\n"
  let st :=
    lines.enum.foldl (fun acc p => parseLineStep acc (p.1 + 1) p.2)
      ⟨false, "", 0, [], [], [], []⟩
  { filePath := filePath
    name := extractContractName content filePath
    imports := st.imports
    types := st.types
    serviceMethods := st.serviceMethods
    apiRoutes := st.apiRoutes }

/-- `parseSharedPrimitives(filePath)` on explicit content. -/
def parseSharedPrimitives (filePath content : String) : SharedPrimitives :=
  if jsEndsWith filePath ".md" then
    let contract := parseContractContent filePath content
    { types := contract.types.foldl (fun m t => assocSet m t.name t) []
      filePath := filePath }
  else
    { types := (extractTypes content 1).foldl (fun m t => assocSet m t.name t) []
      filePath := filePath }

/-! ## Verification logic -/

/-- Surround a string with the single quotes used by the template-literal
messages. -/
def sq (s : String) : String := "\x27" ++ s ++ "\x27"

/-- Substring containment (`String.prototype.includes`). -/
def containsSub (sub : List Char) : List Char → Bool
  | [] => sub.isEmpty
  | c :: rest => sub.isPrefixOf (c :: rest) || containsSub sub rest

/-- `s.includes(sub)`. -/
def strIncludes (s sub : String) : Bool := containsSub sub.data s.data

/-- The `externalLibraries` allowlist of `checkImportResolution`. -/
def externalLibraries : List String :=
  ["zod", "express", "prisma", "@prisma/client", "date-fns", "lodash"]

/-- The `availableTypes` map: primitives keys first (mapped to the
primitives file), then every contract declaration name (overwriting). -/
def buildAvailableTypes (contracts : List ParsedContract)
    (primitives : SharedPrimitives) : List (String × String) :=
  let init := primitives.types.map (fun p => (p.1, primitives.filePath))
  contracts.foldl
    (fun m c => c.types.foldl (fun m t => assocSet m t.name c.filePath) m) init

/-- The issue pushed for an unresolved import. -/
def unresolvedImportIssue (c : ParsedContract) (imp : ImportInfo) :
    VerificationIssue :=
  { severity := .error
    category := .«import»
    message := "Unresolved import: " ++ sq imp.name ++ " from " ++ sq imp.source
    file := c.filePath
    line := some imp.line
    suggestion := some ("Ensure " ++ sq imp.name ++
      " is defined in shared primitives or another contract") }

/-- `checkImportResolution(contracts, primitives)`. -/
def checkImportResolution (contracts : List ParsedContract)
    (primitives : SharedPrimitives) : List VerificationIssue :=
  let availableTypes := buildAvailableTypes contracts primitives
  contracts.flatMap (fun contract =>
    contract.imports.filterMap (fun imp =>
      if externalLibraries.contains imp.source || jsStartsWith imp.source "@" then
        none
      else if jsStartsWith imp.source "." && !strIncludes imp.source "shared" then
        none
      else if assocHas availableTypes imp.name then
        none
      else
        some (unresolvedImportIssue contract imp)))

/-- `path.basename`. -/
def basename (p : String) : String := (jsSplit p "/").getLastD p

/-- The dependency list of one contract: every other contract providing a
type this contract imports, by basename, deduplicated in discovery
order. -/
def contractDeps (contracts : List ParsedContract) (contract : ParsedContract) :
    List String :=
  contract.imports.foldl
    (fun deps imp =>
      contracts.foldl
        (fun deps other =>
          if other.filePath = contract.filePath then deps
          else if other.types.any (fun t => t.name = imp.name) then
            let otherName := basename other.filePath
            if otherName ∈ deps then deps else deps ++ [otherName]
          else deps)
        deps)
    []

/-- `checkCircularDependencies(contracts)`: build the basename graph, run
`detectCycles`, and emit one error per cycle. -/
def checkCircularDependencies (contracts : List ParsedContract) :
    List DependencyNode × List VerificationIssue :=
  let pairs := contracts.map (fun c => (basename c.filePath, contractDeps contracts c))
  let graph : Graph := pairs.foldl (fun g p => assocSet g p.1 p.2) []
  let nodes : List DependencyNode :=
    pairs.map (fun p => { name := p.1, dependencies := p.2 })
  let cycles := detectCycles graph
  (nodes,
    cycles.map (fun cycle =>
      { severity := .error
        category := .circularDep
        message := "Circular dependency detected: " ++
          String.intercalate " -> " cycle
        file := cycle.headD ""
        line := none
        suggestion := some ("Refactor to break the circular dependency, " ++
          "possibly by extracting shared types to primitives") }))

/-! ## `checkNamingConsistency` -/

/-- One element of the `allTypeNames` array. -/
structure NameEntry where
  name : String
  file : String
  line : Nat
deriving DecidableEq, Repr

/-- `allTypeNames`: primitives entries first, then each contract's. -/
def allTypeNameEntries (contracts : List ParsedContract)
    (primitives : SharedPrimitives) : List NameEntry :=
  primitives.types.map
      (fun p => { name := p.1, file := primitives.filePath, line := p.2.line }) ++
    contracts.flatMap (fun c =>
      c.types.map (fun t => { name := t.name, file := c.filePath, line := t.line }))

/-- `^PRE\w+SUF$` as a predicate: the string is `PRE`, then at least one
word character, then `SUF`. -/
def midWordMatch (pre suf : String) (s : String) : Bool :=
  let cs := s.data
  let n := cs.length
  let p := pre.data.length
  let q := suf.data.length
  decide (p + q < n) && pre.data.isPrefixOf cs && suf.data.isSuffixOf cs &&
    ((cs.drop p).take (n - p - q)).all isWordChar

/-- `expectedPatternPairs`, each regex embedded via `midWordMatch`. -/
def expectedPatternPairs : List ((String → Bool) × (String → Bool)) :=
  [ (midWordMatch "Create" "Input", midWordMatch "Update" "Input"),
    (midWordMatch "Create" "Request", midWordMatch "Update" "Request"),
    (midWordMatch "Create" "Response", midWordMatch "Update" "Response"),
    (midWordMatch "" "Id", midWordMatch "" "Ref"),
    (midWordMatch "" "Id", midWordMatch "" "Id"),
    (midWordMatch "" "Ref", midWordMatch "" "Ref"),
    (midWordMatch "" "Score", midWordMatch "" "Scores"),
    (midWordMatch "I" "Service", midWordMatch "I" "Repository") ]

/-- The alternatives of the end-anchored suffix replace
`(Id|Ref|Input|Output|Request|Response|Type|Status|Score|Scores)$`. -/
def namingSuffixAlternatives : List String :=
  ["Id", "Ref", "Input", "Output", "Request", "Response", "Type", "Status",
   "Score", "Scores"]

/-- The end-anchored alternation strips at the leftmost position whose
remainder equals one of the alternatives (which is the longest alternative
that is a suffix). -/
def stripSuffixFrom : List Char → List Char
  | [] => []
  | c :: rest =>
    if namingSuffixAlternatives.any (fun s => s.data = c :: rest) then []
    else c :: stripSuffixFrom rest

/-- `n.replace(/(Id|Ref|Input|Output|Request|Response|Type|Status|Score|Scores)$/, '')`. -/
def stripNamingSuffix (n : String) : String := ⟨stripSuffixFrom n.data⟩

/-- `isExpectedPair(n1, n2)`: a recognized pattern pair in either order, or
equal bases after suffix stripping. -/
def isExpectedPair (n1 n2 : String) : Bool :=
  expectedPatternPairs.any
      (fun pq => (pq.1 n1 && pq.2 n2) || (pq.2 n1 && pq.1 n2)) ||
    stripNamingSuffix n1 == stripNamingSuffix n2

/-- JS `Math.round` on the (here non-negative) similarity percentage. -/
def jsRound (q : ℚ) : ℤ := ⌊q + 1 / 2⌋

/-- A default `NameEntry` standing in for the source's non-null assertion
on `allTypeNames.find(...)` (never reached on the checker's own inputs). -/
def dummyNameEntry : NameEntry := { name := "", file := "", line := 0 }

/-- The warning pushed for one non-exempt similar pair. -/
def similarNamesIssue (entries : List NameEntry) (t : String × String × ℚ) :
    VerificationIssue :=
  let type1 := (entries.find? (fun e => e.name = t.1)).getD dummyNameEntry
  let type2 := (entries.find? (fun e => e.name = t.2.1)).getD dummyNameEntry
  { severity := .warning
    category := .naming
    message := "Similar names detected: " ++ sq t.1 ++ " and " ++ sq t.2.1 ++
      " (" ++ toString (jsRound (t.2.2 * 100)) ++ "% similar)"
    file := type1.file
    line := some type1.line
    suggestion := some ("Consider standardizing to one name. Found in: " ++
      type1.file ++ " and " ++ type2.file) }

/-- The similar pairs that survive the `isExpectedPair` suppression; each
generates exactly one warning in `checkNamingConsistency`. -/
def reportedSimilarPairs (contracts : List ParsedContract)
    (primitives : SharedPrimitives) : List (String × String × ℚ) :=
  let names := (allTypeNameEntries contracts primitives).map (fun e => e.name)
  (findSimilarNames names (85 / 100)).filter (fun t => !isExpectedPair t.1 t.2.1)

/-- `n.replace(/Ref$/, '')`. -/
def stripRefSuffix (n : String) : String :=
  if jsEndsWith n "Ref" then ⟨n.data.take (n.data.length - 3)⟩ else n

/-- The warning for an orphaned `...Ref` interface. -/
def refOrphanIssue (c : ParsedContract) (t : TypeDefinition)
    (entityName : String) : VerificationIssue :=
  { severity := .warning
    category := .naming
    message := "Reference type " ++ sq t.name ++
      " has no corresponding full entity " ++ sq entityName
    file := c.filePath
    line := some t.line
    suggestion := some ("Consider defining " ++ sq entityName ++
      " or renaming if this is not a reference type") }

/-- The `warnedRefTypes` loop of `checkNamingConsistency`. -/
def refOrphanIssues (contracts : List ParsedContract)
    (primitives : SharedPrimitives) : List VerificationIssue :=
  let entries := allTypeNameEntries contracts primitives
  (contracts.foldl
      (fun (st : List String × List VerificationIssue) c =>
        c.types.foldl
          (fun st t =>
            if jsEndsWith t.name "Ref" ∧ t.kind = TypeKind.interface then
              if t.name ∈ st.1 then st
              else
                let entityName := stripRefSuffix t.name
                let hasFullEntity := entries.any (fun e => e.name = entityName)
                let inPrimitives := assocHas primitives.types entityName
                if !hasFullEntity && !inPrimitives then
                  (st.1 ++ [t.name], st.2 ++ [refOrphanIssue c t entityName])
                else st
            else st)
          st)
      ([], [])).2

/-- `checkNamingConsistency(contracts, primitives)`. -/
def checkNamingConsistency (contracts : List ParsedContract)
    (primitives : SharedPrimitives) : List VerificationIssue :=
  let entries := allTypeNameEntries contracts primitives
  (reportedSimilarPairs contracts primitives).map (similarNamesIssue entries) ++
    refOrphanIssues contracts primitives

/-! ## `checkTypeShapeCompatibility` and `areTypesCompatible` -/

/-- `t.toLowerCase().replace(/\s+/g, '')`. -/
def normalizeType (t : String) : String :=
  ⟨(jsToLower t).data.filter (fun c => !isJsSpace c)⟩

/-- The fixed `equivalences` table. -/
def typeEquivalences : List (String × String) :=
  [("string", "String"), ("number", "Number"), ("boolean", "Boolean"),
   ("Date", "string")]

/-- `areTypesCompatible(type1, type2)`. -/
def areTypesCompatible (type1 type2 : String) : Bool :=
  if normalizeType type1 = normalizeType type2 then true
  else
    typeEquivalences.any (fun ab =>
      (type1 == ab.1 && type2 == ab.2) || (type1 == ab.2 && type2 == ab.1))

/-- The `typesByName` map: primitives first (insert-or-overwrite with a
fresh singleton), then every contract declaration appended to its
name's bucket. -/
def typesByName (contracts : List ParsedContract)
    (primitives : SharedPrimitives) :
    List (String × List (TypeDefinition × String)) :=
  let init := primitives.types.foldl
    (fun m p => assocSet m p.1 [(p.2, primitives.filePath)]) []
  contracts.foldl
    (fun m c => c.types.foldl (fun m t => assocPush m t.name (t, c.filePath)) m)
    init

/-- `new Map(properties.map(p => [p.name, p]))`. -/
def propMap (props : List PropertyInfo) : List (String × PropertyInfo) :=
  props.foldl (fun m p => assocSet m p.name p) []

/-- The "missing property" error. -/
def missingPropIssue (name propName : String) (prop : PropertyInfo)
    (baseline current : TypeDefinition × String) : VerificationIssue :=
  { severity := .error
    category := .typeShape
    message := "Type " ++ sq name ++ " is missing property " ++ sq propName ++
      " in " ++ current.2
    file := current.2
    line := some current.1.line
    suggestion := some ("Add property " ++ sq (propName ++ ": " ++ prop.type) ++
      " to match " ++ baseline.2) }

/-- The field-type mismatch error. -/
def typeMismatchIssue (name propName : String) (baseProp prop : PropertyInfo)
    (baseline current : TypeDefinition × String) : VerificationIssue :=
  { severity := .error
    category := .typeShape
    message := "Type mismatch for " ++ sq (name ++ "." ++ propName) ++ ": " ++
      sq baseProp.type ++ " in " ++ baseline.2 ++ " vs " ++ sq prop.type ++
      " in " ++ current.2
    file := current.2
    line := some current.1.line
    suggestion := some ("Ensure " ++ sq propName ++
      " has consistent type across all definitions") }

/-- The optionality drift warning. -/
def optionalityIssue (name propName : String) (baseProp prop : PropertyInfo)
    (baseline current : TypeDefinition × String) : VerificationIssue :=
  { severity := .warning
    category := .typeShape
    message := "Optionality mismatch for " ++ sq (name ++ "." ++ propName) ++
      ": " ++ (if baseProp.optional then "optional" else "required") ++
      " in " ++ baseline.2 ++ " vs " ++
      (if prop.optional then "optional" else "required") ++ " in " ++ current.2
    file := current.2
    line := some current.1.line
    suggestion := some ("Ensure " ++ sq propName ++
      " has consistent optionality") }

/-- The per-pair body of the interface comparison: baseline properties
missing from the current declaration first, then type/optionality checks
over the current declaration's properties. -/
def compareWithBaseline (name : String)
    (baseline current : TypeDefinition × String) : List VerificationIssue :=
  let baselineProps := propMap baseline.1.properties
  let currentProps := propMap current.1.properties
  baselineProps.filterMap
      (fun bp =>
        if assocHas currentProps bp.1 then none
        else some (missingPropIssue name bp.1 bp.2 baseline current)) ++
    currentProps.flatMap (fun cp =>
      match assocGet baselineProps cp.1 with
      | none => []
      | some baseProp =>
        (if baseProp.type ≠ cp.2.type ∧
            areTypesCompatible baseProp.type cp.2.type = false then
          [typeMismatchIssue name cp.1 baseProp cp.2 baseline current]
        else []) ++
          (if baseProp.optional ≠ cp.2.optional then
            [optionalityIssue name cp.1 baseProp cp.2 baseline current]
          else []))

/-- The issues produced for one `typesByName` entry: nothing for a single
definition, else the first interface is the baseline and every later
interface is compared against it. -/
def shapeIssuesForEntry (e : String × List (TypeDefinition × String)) :
    List VerificationIssue :=
  if e.2.length ≤ 1 then []
  else
    let interfaces := e.2.filter (fun d => d.1.kind = TypeKind.interface)
    match interfaces with
    | [] => []
    | baseline :: rest => rest.flatMap (compareWithBaseline e.1 baseline)

/-- The kind-conflict error for an import locally re-declared with a
different kind than the primitives declaration. -/
def kindConflictIssue (c : ParsedContract) (imp : ImportInfo)
    (localDef primitiveDef : TypeDefinition) : VerificationIssue :=
  { severity := .error
    category := .typeShape
    message := "Import " ++ sq imp.name ++ " is redefined as " ++
      localDef.kind.toStr ++ " but primitives defines it as " ++
      primitiveDef.kind.toStr
    file := c.filePath
    line := some localDef.line
    suggestion := some ("Remove local definition and use the imported type, " ++
      "or rename to avoid conflict") }

/-- The second phase of `checkTypeShapeCompatibility`: for every import
that is also locally declared and present in primitives, flag differing
kinds. -/
def kindConflictIssues (contracts : List ParsedContract)
    (primitives : SharedPrimitives) : List VerificationIssue :=
  contracts.flatMap (fun c =>
    c.imports.filterMap (fun imp =>
      match c.types.find? (fun t => t.name = imp.name),
            assocGet primitives.types imp.name with
      | some localDef, some primitiveDef =>
        if localDef.kind ≠ primitiveDef.kind then
          some (kindConflictIssue c imp localDef primitiveDef)
        else none
      | some _, none => none
      | none, _ => none))

/-- `checkTypeShapeCompatibility(contracts, primitives)`. -/
def checkTypeShapeCompatibility (contracts : List ParsedContract)
    (primitives : SharedPrimitives) : List VerificationIssue :=
  (typesByName contracts primitives).flatMap shapeIssuesForEntry ++
    kindConflictIssues contracts primitives

/-! ## Report generation and the top-level entry point -/

/-- `generateReport(primitives, contracts, issues, dependencyGraph)`. -/
def generateReport (primitives : SharedPrimitives)
    (contracts : List ParsedContract) (issues : List VerificationIssue)
    (dependencyGraph : List DependencyNode) : VerificationReport :=
  let errorCount := (issues.filter (fun i => i.severity = Severity.error)).length
  { primitivesFile := primitives.filePath
    contractFiles := contracts.map (fun c => c.filePath)
    issues := issues
    stats :=
      { totalContracts := contracts.length
        totalTypes := (contracts.foldl (fun s c => s + c.types.length) 0) +
          primitives.types.length
        totalImports := contracts.foldl (fun s c => s + c.imports.length) 0
        totalServiceMethods :=
          contracts.foldl (fun s c => s + c.serviceMethods.length) 0
        totalApiRoutes := contracts.foldl (fun s c => s + c.apiRoutes.length) 0 }
    dependencyGraph := dependencyGraph
    passed := errorCount = 0 }

/-- `verifyContracts(options)`: parse the primitives document and every
contract document (contents passed explicitly in place of file reads),
run the four checks in source order, and generate the report. -/
def verifyContracts (primitivesPath primitivesContent : String)
    (contractDocs : List (String × String)) : VerificationReport :=
  let primitives := parseSharedPrimitives primitivesPath primitivesContent
  let contracts := contractDocs.map (fun d => parseContractContent d.1 d.2)
  let importIssues := checkImportResolution contracts primitives
  let gi := checkCircularDependencies contracts
  let namingIssues := checkNamingConsistency contracts primitives
  let shapeIssues := checkTypeShapeCompatibility contracts primitives
  generateReport primitives contracts
    (importIssues ++ gi.2 ++ namingIssues ++ shapeIssues) gi.1

/-! ## Concrete fixtures used by witnesses and counterexamples -/

/-- An empty shared-vocabulary document. -/
def emptyPrimitives : SharedPrimitives := { types := [], filePath := "prims.md" }

/-- `UserRef { id, email }` as declared by contract A. -/
def tyUserRefA : TypeDefinition :=
  { name := "UserRef", kind := TypeKind.interface
    properties := [⟨"id", "string", false⟩, ⟨"email", "string", false⟩]
    rawContent := "", line := 3 }

/-- `UserRef { id, email, phone }` as declared by contract B. -/
def tyUserRefB : TypeDefinition :=
  { name := "UserRef", kind := TypeKind.interface
    properties := [⟨"id", "string", false⟩, ⟨"email", "string", false⟩,
                   ⟨"phone", "string", false⟩]
    rawContent := "", line := 3 }

def contractUserRefA : ParsedContract :=
  { filePath := "a.md", name := "A", imports := [], types := [tyUserRefA]
    serviceMethods := [], apiRoutes := [] }

def contractUserRefB : ParsedContract :=
  { filePath := "b.md", name := "B", imports := [], types := [tyUserRefB]
    serviceMethods := [], apiRoutes := [] }

/-- A contract importing an undeclared name from a scoped package. -/
def contractScopedImport : ParsedContract :=
  { filePath := "c.md", name := "C"
    imports := [⟨"Foo", "@acme/lib", 3⟩]
    types := [], serviceMethods := [], apiRoutes := [] }

/-- `ProductId` declared as a type alias by the shared vocabulary. -/
def tyProductIdAlias : TypeDefinition :=
  { name := "ProductId", kind := TypeKind.typeAlias, properties := []
    rawContent := "", line := 2 }

/-- `ProductId` locally re-declared as an enum by a contract. -/
def tyProductIdEnum : TypeDefinition :=
  { name := "ProductId", kind := TypeKind.enum, properties := []
    rawContent := "", line := 5 }

def importProductId : ImportInfo := ⟨"ProductId", "./shared/shared.types", 2⟩

def contractKindConflict : ParsedContract :=
  { filePath := "k.md", name := "K", imports := [importProductId]
    types := [tyProductIdEnum], serviceMethods := [], apiRoutes := [] }

def primitivesProductId : SharedPrimitives :=
  { types := [("ProductId", tyProductIdAlias)], filePath := "shared.md" }

/-! ## C1 — the report passes iff no error-severity issue was collected -/

/-- Claim C1: the report's overall `passed` flag is `true` iff the collected
issue list contains zero error-severity issues, and appending a
warning-severity issue never changes the outcome. -/
theorem generateReport_passed_iff_no_error_issues
    (primitives : SharedPrimitives) (contracts : List ParsedContract)
    (issues : List VerificationIssue) (graph : List DependencyNode) :
    ((generateReport primitives contracts issues graph).passed = true ↔
      ∀ i ∈ issues, i.severity ≠ Severity.error) ∧
    (∀ w : VerificationIssue, w.severity = Severity.warning →
      (generateReport primitives contracts (issues ++ [w]) graph).passed =
        (generateReport primitives contracts issues graph).passed) := by
  constructor
  · simp only [generateReport, decide_eq_true_eq, List.length_eq_zero,
      List.filter_eq_nil_iff, decide_eq_true_iff]
  · intro w hw
    simp only [generateReport, List.filter_append, List.length_append]
    have : List.filter (fun i => decide (i.severity = Severity.error)) [w] = [] := by
      simp [hw]
    rw [this]
    simp

/-- A concrete warning-severity issue. -/
def sampleWarning : VerificationIssue :=
  { severity := Severity.warning, category := Category.naming, message := ""
    file := "", line := none, suggestion := none }

/-- Witness for C1 at a concrete report: an empty issue list passes, and
appending a warning does not change the outcome. -/
theorem generateReport_passed_iff_no_error_issues_witness :
    (generateReport emptyPrimitives [] [] []).passed = true ∧
      (generateReport emptyPrimitives [] ([] ++ [sampleWarning]) []).passed =
        (generateReport emptyPrimitives [] [] []).passed :=
  ⟨((generateReport_passed_iff_no_error_issues emptyPrimitives [] [] []).1).mpr
      (by intro i hi; cases hi),
    (generateReport_passed_iff_no_error_issues emptyPrimitives [] [] []).2
      sampleWarning rfl⟩

/-! ## C9 — `areTypesCompatible` is symmetric -/

/-- Claim C9: the field-type compatibility check is symmetric in its two
arguments: normalized equality and every equivalence-table entry are
accepted in both orders. -/
theorem areTypesCompatible_symm (a b : String) :
    areTypesCompatible a b = areTypesCompatible b a := by
  unfold areTypesCompatible
  by_cases h : normalizeType a = normalizeType b
  · rw [if_pos h, if_pos h.symm]
  · rw [if_neg h, if_neg (fun hh => h hh.symm)]
    refine Bool.eq_iff_iff.mpr ?_
    simp only [List.any_eq_true, Bool.or_eq_true, Bool.and_eq_true, beq_iff_eq]
    constructor
    · rintro ⟨x, hx, h1 | h2⟩
      · exact ⟨x, hx, Or.inr ⟨h1.2, h1.1⟩⟩
      · exact ⟨x, hx, Or.inl ⟨h2.2, h2.1⟩⟩
    · rintro ⟨x, hx, h1 | h2⟩
      · exact ⟨x, hx, Or.inr ⟨h1.2, h1.1⟩⟩
      · exact ⟨x, hx, Or.inl ⟨h2.2, h2.1⟩⟩

/-! ## C5 — kind conflict between an import and a local re-declaration -/

/-- Claim C5: whenever a contract both imports a name and locally declares
a type with the same identifier, and the local kind differs from the
shared-vocabulary kind for that name, an error-severity `type-shape`
issue is emitted (independently of any field contents). -/
theorem kind_conflict_always_error
    (contracts : List ParsedContract) (primitives : SharedPrimitives)
    (c : ParsedContract) (imp : ImportInfo)
    (localDef primitiveDef : TypeDefinition)
    (hc : c ∈ contracts) (hi : imp ∈ c.imports)
    (hl : c.types.find? (fun t => t.name = imp.name) = some localDef)
    (hp : assocGet primitives.types imp.name = some primitiveDef)
    (hk : localDef.kind ≠ primitiveDef.kind) :
    kindConflictIssue c imp localDef primitiveDef ∈
        checkTypeShapeCompatibility contracts primitives ∧
      (kindConflictIssue c imp localDef primitiveDef).severity =
        Severity.error ∧
      (kindConflictIssue c imp localDef primitiveDef).category =
        Category.typeShape := by
  refine ⟨?_, rfl, rfl⟩
  unfold checkTypeShapeCompatibility
  refine List.mem_append_right _ ?_
  unfold kindConflictIssues
  refine List.mem_flatMap.mpr ⟨c, hc, ?_⟩
  refine List.mem_filterMap.mpr ⟨imp, hi, ?_⟩
  rw [hl, hp]
  simp [hk]

/-- Witness for C5: `ProductId` imported from the shared vocabulary (which
declares it as an alias) and locally re-declared as an enum. -/
theorem kind_conflict_always_error_witness :
    kindConflictIssue contractKindConflict importProductId tyProductIdEnum
        tyProductIdAlias ∈
      checkTypeShapeCompatibility [contractKindConflict] primitivesProductId :=
  (kind_conflict_always_error [contractKindConflict] primitivesProductId
      contractKindConflict importProductId tyProductIdEnum tyProductIdAlias
      (by simp) (by simp [contractKindConflict])
      (by decide) (by decide) (by decide)).1

/-! ## C7 — suffix-stripping suppression -/

/-- Evaluation helper for `similarityRatio` (the distance and the length
maximum are discharged by kernel evaluation, the rational arithmetic by
`norm_num`). -/
theorem similarityRatio_eval (a b : String) (d n : Nat)
    (hd : levenshteinDistance a b = d)
    (hn : Nat.max a.data.length b.data.length = n) (h0 : ¬n = 0) :
    similarityRatio a b = 1 - (d : ℚ) / (n : ℚ) := by
  unfold similarityRatio
  simp only [hd, hn]
  rw [if_neg h0]

/-- Modelled from the spec: the suffix list claim C7 recites — identifier
(`Id`), reference (`Ref`), `Input`, `Output`, `Request`, `Response`,
`Type`, `Status`, "and pluralized forms of these". -/
def claimRecognizedSuffixes : List String :=
  ["Id", "Ref", "Input", "Output", "Request", "Response", "Type", "Status",
   "Ids", "Refs", "Inputs", "Outputs", "Requests", "Responses", "Types",
   "Statuses"]

/-- Counterexample to C7: `FooInput` and `FooInputs` strip to the common
base `Foo` under the claim's suffix list (using the suffixes `Input` and
its pluralized form `Inputs`), and the pair is a genuine similarity
candidate (ratio 8/9, which is at least 0.85 and below 1), yet
`isExpectedPair` does not suppress it: the source's alternation contains
`Score` and `Scores` but no pluralized form of any other suffix. -/
theorem plural_suffix_pair_not_suppressed_cex :
    ("Input" ∈ claimRecognizedSuffixes ∧ "FooInput" = "Foo" ++ "Input" ∧
      "Inputs" ∈ claimRecognizedSuffixes ∧ "FooInputs" = "Foo" ++ "Inputs") ∧
    (85 / 100 ≤ similarityRatio (jsToLower "FooInput") (jsToLower "FooInputs") ∧
      similarityRatio (jsToLower "FooInput") (jsToLower "FooInputs") < 1) ∧
    isExpectedPair "FooInput" "FooInputs" = false := by
  have hs : similarityRatio (jsToLower "FooInput") (jsToLower "FooInputs") =
      1 - (1 : ℚ) / (9 : ℚ) :=
    similarityRatio_eval _ _ 1 9 (by decide) (by decide) (by decide)
  refine ⟨⟨by decide, by decide, by decide, by decide⟩, ⟨?_, ?_⟩, by decide⟩
  · rw [hs]; norm_num
  · rw [hs]; norm_num

/-- Claim C7 as amended: the recognized suffixes are exactly `Id`, `Ref`,
`Input`, `Output`, `Request`, `Response`, `Type`, `Status`, `Score` and
`Scores` (the only pluralized form); whenever stripping them from both
names yields the same base string, the candidate is suppressed. -/
theorem equal_stripped_base_suppressed (n1 n2 : String)
    (h : stripNamingSuffix n1 = stripNamingSuffix n2) :
    isExpectedPair n1 n2 = true := by
  unfold isExpectedPair
  have hb : (stripNamingSuffix n1 == stripNamingSuffix n2) = true :=
    beq_iff_eq.mpr h
  rw [hb, Bool.or_true]

/-- Witness for the amended C7: `FooId` and `FooRef` both strip to `Foo`
and are suppressed. -/
theorem equal_stripped_base_suppressed_witness :
    isExpectedPair "FooId" "FooRef" = true :=
  equal_stripped_base_suppressed "FooId" "FooRef" (by decide)

/-! ## C8 — line numbers of constructs inside fenced regions -/

/-- A document with prose on line 1, the opening fence on line 2, an import
on line 3 and an interface declaration on line 4. -/
def fencedDoc : String :=
  "# Title\n\x60\x60\x60typescript\nimport \x7b Foo \x7d from \x27./x\x27;\nexport interface Bar \x7b\n  id: string;\n\x7d\n\x60\x60\x60\n"

/-- Claim C8 evaluated at a failing input: the import sitting on document
line 3 (index 2 of the line list) is recorded with line 2, and the
interface on document line 4 (index 3) is recorded with line 3 — the
parser stores the fence line number as `codeBlockStartLine` and adds the
zero-based newline offset inside the extracted block, which lands one
line above the construct's position in the original document. -/
theorem fenced_region_line_numbers_off_by_one :
    ((jsSplit fencedDoc "\n").get? 2 =
        some "import \x7b Foo \x7d from \x27./x\x27;" ∧
      (jsSplit fencedDoc "\n").get? 3 = some "export interface Bar \x7b") ∧
    (parseContractContent "doc.md" fencedDoc).imports.map (fun i => i.line) =
      [2] ∧
    (parseContractContent "doc.md" fencedDoc).types.map
        (fun t => (t.name, t.line)) = [("Bar", 3)] := by
  refine ⟨⟨by decide, by decide⟩, by decide, by decide⟩

/-! ## C3 — import-resolution characterization -/

/-- The exemptions exactly as the code applies them (the amended claim C3):
an allowlisted external library, any module specifier starting with `@`,
or a relative path (starting with `.`) whose text does not contain the
substring `shared`. -/
def importExemptAmended (imp : ImportInfo) : Bool :=
  externalLibraries.contains imp.source || jsStartsWith imp.source "@" ||
    (jsStartsWith imp.source "." && !strIncludes imp.source "shared")

/-- The imported name has a visible declaration: in the shared-vocabulary
document or in some contract document. -/
def importResolvable (contracts : List ParsedContract)
    (primitives : SharedPrimitives) (imp : ImportInfo) : Bool :=
  assocHas primitives.types imp.name ||
    contracts.any (fun c => c.types.any (fun t => t.name = imp.name))

theorem filterMap_guard {α β : Type} (p : α → Bool) (g : α → β) (l : List α) :
    (l.filterMap fun a => if p a then some (g a) else none) =
      (l.filter p).map g := by
  induction l with
  | nil => rfl
  | cons x xs ih =>
    by_cases h : p x <;>
      simp [List.filterMap_cons, List.filter_cons, h, ih]

theorem assocHas_assocSet {α : Type} (m : List (String × α)) (k k' : String)
    (v : α) :
    assocHas (assocSet m k' v) k = (assocHas m k || decide (k' = k)) := by
  have he : ((List.map (fun p : String × α => if p.1 = k' then (p.1, v) else p) m).any
        fun p => decide (p.1 = k)) =
      m.any fun p => decide (p.1 = k) := by
    simp only [List.any_map]
    congr 1
    funext p
    by_cases h : p.1 = k' <;> simp [h]
  unfold assocHas assocSet
  by_cases hk : m.any (fun p => p.1 = k')
  · rw [if_pos hk]
    rw [he]
    by_cases hkk : k' = k
    · subst hkk
      simp [hk]
    · simp [hkk]
  · rw [if_neg hk, List.any_append]
    simp [List.any_cons]

theorem assocHas_types_fold (ts : List TypeDefinition) (file : String)
    (m : List (String × String)) (k : String) :
    assocHas (ts.foldl (fun m t => assocSet m t.name file) m) k =
      (assocHas m k || ts.any (fun t => t.name = k)) := by
  induction ts generalizing m with
  | nil => simp
  | cons t ts ih =>
    rw [List.foldl_cons, ih, assocHas_assocSet]
    simp [Bool.or_assoc]

theorem assocHas_buildAvailableTypes (contracts : List ParsedContract)
    (primitives : SharedPrimitives) (k : String) :
    assocHas (buildAvailableTypes contracts primitives) k =
      (assocHas primitives.types k ||
        contracts.any (fun c => c.types.any (fun t => t.name = k))) := by
  unfold buildAvailableTypes
  have hfold :
      ∀ (cs : List ParsedContract) (m : List (String × String)),
        assocHas
            (cs.foldl
              (fun m c => c.types.foldl (fun m t => assocSet m t.name c.filePath) m)
              m) k =
          (assocHas m k || cs.any (fun c => c.types.any (fun t => t.name = k))) := by
    intro cs
    induction cs with
    | nil => simp
    | cons c cs ih =>
      intro m
      rw [List.foldl_cons, ih, assocHas_types_fold]
      simp [Bool.or_assoc]
  rw [hfold]
  congr 1
  unfold assocHas
  induction primitives.types with
  | nil => rfl
  | cons p ps ih => simp only [List.map_cons, List.any_cons, ih]

/-- Claim C3 as amended: an unresolved-import error is produced for an
imported name exactly when no exemption applies — allowlist membership,
a `@` scoped module, or a relative path not containing `shared` — and the name
has no visible declaration; exempt imports are skipped even when
unresolvable, and resolvable imports are never flagged. -/
theorem checkImportResolution_characterization
    (contracts : List ParsedContract) (primitives : SharedPrimitives) :
    checkImportResolution contracts primitives =
      contracts.flatMap (fun c =>
        (c.imports.filter (fun imp =>
            !importExemptAmended imp &&
              !importResolvable contracts primitives imp)).map
          (unresolvedImportIssue c)) := by
  unfold checkImportResolution
  apply List.flatMap_congr
  intro c _
  rw [← filterMap_guard
    (fun imp => !importExemptAmended imp &&
      !importResolvable contracts primitives imp)
    (unresolvedImportIssue c) c.imports]
  apply List.filterMap_congr
  intro imp _
  rw [assocHas_buildAvailableTypes]
  unfold importExemptAmended importResolvable
  cases hA : (externalLibraries.contains imp.source || jsStartsWith imp.source "@") with
  | true => simp [hA]
  | false =>
    cases hB : (jsStartsWith imp.source "." && !strIncludes imp.source "shared") with
    | true => simp [hA, hB]
    | false =>
      cases hH : (assocHas primitives.types imp.name ||
          contracts.any fun c => c.types.any fun t => t.name = imp.name) with
      | true => simp [hA, hB, hH]
      | false => simp [hA, hB, hH]

/-- Counterexample to C3: an import of an undeclared name from the scoped
module `@acme/lib` — which is neither on the allowlist nor a relative
path — is silently skipped rather than flagged, because the code exempts
every module specifier starting with `@`. -/
theorem scoped_import_exempt_cex :
    checkImportResolution [contractScopedImport] emptyPrimitives = [] ∧
    externalLibraries.contains "@acme/lib" = false ∧
    jsStartsWith "@acme/lib" "." = false ∧
    contractScopedImport.imports = [⟨"Foo", "@acme/lib", 3⟩] ∧
    contractScopedImport.types = [] ∧
    emptyPrimitives.types = [] := by
  refine ⟨by decide, by decide, by decide, by decide, by decide, by decide⟩

/-! ## C2 — missing-field detection direction -/

/-- Counterexample to C2: with contract A (declaring `UserRef { id, email }`)
encountered before contract B (declaring `UserRef { id, email, phone }`),
the comparator reports nothing at all — A is the baseline, the
missing-property scan only walks baseline properties, and the second scan
ignores properties absent from the baseline — whereas the claim demands
exactly one "missing property phone" error in either direction. -/
theorem missing_field_other_direction_cex :
    contractUserRefA.types.map
        (fun t => (t.name, t.properties.map (fun q => q.name))) =
      [("UserRef", ["id", "email"])] ∧
    contractUserRefB.types.map
        (fun t => (t.name, t.properties.map (fun q => q.name))) =
      [("UserRef", ["id", "email", "phone"])] ∧
    checkTypeShapeCompatibility [contractUserRefA, contractUserRefB]
      emptyPrimitives = [] := by
  refine ⟨by decide, by decide, by decide⟩

/-- Claim C2 as amended: a missing-field error is produced exactly in the
baseline direction — whenever the first-encountered (baseline) interface
declaration of a name has a field that a later same-named interface
declaration lacks, a "missing property" error naming that field and
attributed to the later document is reported; in the `UserRef` scenario
this means zero issues when A (the two-field declaration) comes first and
exactly one "missing property phone" error attributed to A when B comes
first. -/
theorem missing_property_baseline_direction
    (contracts : List ParsedContract) (primitives : SharedPrimitives)
    (name : String) (defs : List (TypeDefinition × String))
    (baseline cur : TypeDefinition × String)
    (rest : List (TypeDefinition × String)) (pn : String) (p : PropertyInfo)
    (hmem : (name, defs) ∈ typesByName contracts primitives)
    (hif : defs.filter (fun d => d.1.kind = TypeKind.interface) =
      baseline :: rest)
    (hcur : cur ∈ rest)
    (hbp : assocGet (propMap baseline.1.properties) pn = some p)
    (hnp : assocHas (propMap cur.1.properties) pn = false) :
    (missingPropIssue name pn p baseline cur ∈
      checkTypeShapeCompatibility contracts primitives) ∧
    checkTypeShapeCompatibility [contractUserRefA, contractUserRefB]
      emptyPrimitives = [] ∧
    checkTypeShapeCompatibility [contractUserRefB, contractUserRefA]
        emptyPrimitives =
      [missingPropIssue "UserRef" "phone" ⟨"phone", "string", false⟩
        (tyUserRefB, "b.md") (tyUserRefA, "a.md")] := by
  refine ⟨?_, by decide, by decide⟩
  unfold checkTypeShapeCompatibility
  refine List.mem_append_left _ ?_
  refine List.mem_flatMap.mpr ⟨(name, defs), hmem, ?_⟩
  unfold shapeIssuesForEntry
  have hlen : ¬defs.length ≤ 1 := by
    have h1 : (defs.filter (fun d => d.1.kind = TypeKind.interface)).length ≤
        defs.length := List.length_filter_le _ _
    rw [hif] at h1
    have h2 : 1 ≤ rest.length := by
      cases rest with
      | nil => cases hcur
      | cons x xs => simp
    simp only [List.length_cons] at h1
    omega
  rw [if_neg hlen, hif]
  refine List.mem_flatMap.mpr ⟨cur, hcur, ?_⟩
  unfold compareWithBaseline
  refine List.mem_append_left _ ?_
  have hqp : (pn, p) ∈ propMap baseline.1.properties := by
    unfold assocGet at hbp
    cases hfind : List.find? (fun q => q.1 = pn) (propMap baseline.1.properties) with
    | none => rw [hfind] at hbp; cases hbp
    | some qp =>
      rw [hfind] at hbp
      have hsnd : qp.2 = p := by
        simpa using hbp
      have hfst : qp.1 = pn := by
        have := List.find?_some hfind
        simpa using this
      have hm := List.mem_of_find?_eq_some hfind
      have : qp = (pn, p) := Prod.ext hfst hsnd
      rwa [this] at hm
  refine List.mem_filterMap.mpr ⟨(pn, p), hqp, ?_⟩
  simp [hnp]

/-- Witness for the amended C2: contract B first, then A — the baseline is
B's three-field declaration and the error lands on A. -/
theorem missing_property_baseline_direction_witness :
    missingPropIssue "UserRef" "phone" ⟨"phone", "string", false⟩
        (tyUserRefB, "b.md") (tyUserRefA, "a.md") ∈
      checkTypeShapeCompatibility [contractUserRefB, contractUserRefA]
        emptyPrimitives :=
  (missing_property_baseline_direction [contractUserRefB, contractUserRefA]
      emptyPrimitives "UserRef" [(tyUserRefB, "b.md"), (tyUserRefA, "a.md")]
      (tyUserRefB, "b.md") (tyUserRefA, "a.md") [(tyUserRefA, "a.md")]
      "phone" ⟨"phone", "string", false⟩
      (by decide) (by decide) (by decide) (by decide) (by decide)).1

/-! ## C10 — a primitives-only run can only produce naming warnings -/

theorem typesByName_nil_entry_len (P : SharedPrimitives) :
    ∀ e ∈ typesByName [] P, e.2.length = 1 := by
  unfold typesByName
  simp only [List.foldl_nil]
  have hgen :
      ∀ (ts : List (String × TypeDefinition))
        (m : List (String × List (TypeDefinition × String))),
        (∀ e ∈ m, e.2.length = 1) →
        ∀ e ∈ ts.foldl (fun m p => assocSet m p.1 [(p.2, P.filePath)]) m,
          e.2.length = 1 := by
    intro ts
    induction ts with
    | nil => intro m hm; simpa using hm
    | cons p ts ih =>
      intro m hm
      rw [List.foldl_cons]
      apply ih
      intro e he
      unfold assocSet at he
      by_cases h : m.any (fun q => q.1 = p.1)
      · rw [if_pos h] at he
        rcases List.mem_map.mp he with ⟨q, hq, rfl⟩
        by_cases h2 : q.1 = p.1
        · simp [h2]
        · simpa [h2] using hm q hq
      · rw [if_neg h] at he
        rcases List.mem_append.mp he with h1 | h2
        · exact hm e h1
        · rcases List.mem_singleton.mp h2 with rfl
          rfl
  exact hgen P.types [] (by intro e he; cases he)

theorem checkTypeShapeCompatibility_nil (P : SharedPrimitives) :
    checkTypeShapeCompatibility [] P = [] := by
  unfold checkTypeShapeCompatibility
  have h2 : kindConflictIssues [] P = [] := rfl
  rw [h2, List.append_nil, List.flatMap_eq_nil_iff]
  intro e he
  have hlen := typesByName_nil_entry_len P e he
  unfold shapeIssuesForEntry
  rw [if_pos (by omega)]

theorem checkNamingConsistency_nil_warnings (P : SharedPrimitives) :
    ∀ i ∈ checkNamingConsistency [] P,
      i.severity = Severity.warning ∧ i.category = Category.naming := by
  intro i hi
  unfold checkNamingConsistency at hi
  have href : refOrphanIssues [] P = [] := rfl
  rw [href, List.append_nil] at hi
  rcases List.mem_map.mp hi with ⟨t, _, rfl⟩
  exact ⟨rfl, rfl⟩

/-- Claim C10: verifying a shared-vocabulary document against an empty
contract list yields only warning-severity naming issues (near-duplicate
names among the primitives' own declarations) and the run passes. -/
theorem primitives_only_run_passes (ppath pcontent : String) :
    (∀ i ∈ (verifyContracts ppath pcontent []).issues,
        i.severity = Severity.warning ∧ i.category = Category.naming) ∧
      (verifyContracts ppath pcontent []).passed = true := by
  have hrep : verifyContracts ppath pcontent [] =
      generateReport (parseSharedPrimitives ppath pcontent) []
        (checkImportResolution [] (parseSharedPrimitives ppath pcontent) ++
          (checkCircularDependencies []).2 ++
          checkNamingConsistency [] (parseSharedPrimitives ppath pcontent) ++
          checkTypeShapeCompatibility [] (parseSharedPrimitives ppath pcontent))
        (checkCircularDependencies []).1 := rfl
  have hgiss : ∀ (P : SharedPrimitives) (cs : List ParsedContract)
      (iss : List VerificationIssue) (gr : List DependencyNode),
      (generateReport P cs iss gr).issues = iss := fun _ _ _ _ => rfl
  have hgpass : ∀ (P : SharedPrimitives) (cs : List ParsedContract)
      (iss : List VerificationIssue) (gr : List DependencyNode),
      (generateReport P cs iss gr).passed =
        decide ((iss.filter (fun i => i.severity = Severity.error)).length = 0) :=
    fun _ _ _ _ => rfl
  have himp : checkImportResolution [] (parseSharedPrimitives ppath pcontent) =
      [] := rfl
  have hc2 : (checkCircularDependencies ([] : List ParsedContract)).2 = [] := rfl
  constructor
  · intro i hi
    rw [hrep, hgiss, himp, hc2, checkTypeShapeCompatibility_nil,
      List.append_nil, List.nil_append, List.nil_append] at hi
    exact checkNamingConsistency_nil_warnings _ i hi
  · rw [hrep, hgpass, himp, hc2, checkTypeShapeCompatibility_nil,
      List.append_nil, List.nil_append, List.nil_append]
    have hfil : (checkNamingConsistency []
        (parseSharedPrimitives ppath pcontent)).filter
          (fun i => i.severity = Severity.error) = [] := by
      rw [List.filter_eq_nil_iff]
      intro i hi
      have := (checkNamingConsistency_nil_warnings _ i hi).1
      simp [this]
    rw [hfil]
    rfl

/-! ## C4 — cycle detection: soundness on acyclic graphs and the
three-node cycle -/

/-- A walk: consecutive elements are edges of the graph. -/
def IsWalk (g : Graph) (w : List String) : Prop :=
  List.Chain' (fun a b => b ∈ getAdj g a) w

/-- A closed non-trivial walk (at least one edge, same first and last
node). -/
def IsClosedWalk (g : Graph) (w : List String) : Prop :=
  IsWalk g w ∧ 2 ≤ w.length ∧ w.head? = w.getLast?

/-- A graph with no cycle: no closed walk exists. -/
def AcyclicGraph (g : Graph) : Prop := ∀ w, ¬IsClosedWalk g w

theorem recorded_cycle_closed (g : Graph) (path : List String)
    (last nb : String) (hwalk : IsWalk g path)
    (hlast : path.getLast? = some last) (hedge : nb ∈ getAdj g last)
    (hmem : nb ∈ path) :
    IsClosedWalk g (path.drop (path.indexOf nb) ++ [nb]) := by
  have hklt : path.indexOf nb < path.length := List.indexOf_lt_length.mpr hmem
  have hdropcons : path.drop (path.indexOf nb) =
      nb :: path.drop (path.indexOf nb + 1) := by
    rw [List.drop_eq_getElem_cons hklt]
    congr 1
    exact List.getElem_indexOf hklt
  have hne : path.drop (path.indexOf nb) ≠ [] := by
    rw [hdropcons]; exact List.cons_ne_nil _ _
  have hsplit : path = path.take (path.indexOf nb) ++
      path.drop (path.indexOf nb) := (List.take_append_drop _ _).symm
  have hdw : IsWalk g (path.drop (path.indexOf nb)) := by
    unfold IsWalk at hwalk ⊢
    exact (hsplit ▸ hwalk).right_of_append
  have hdl : (path.drop (path.indexOf nb)).getLast? = some last := by
    rw [← hlast]
    conv_rhs => rw [hsplit]
    rw [List.getLast?_append]
    cases hgl : (path.drop (path.indexOf nb)).getLast? with
    | none => exact absurd (List.getLast?_eq_none_iff.mp hgl) hne
    | some a => simp
  refine ⟨?_, ?_, ?_⟩
  · unfold IsWalk
    rw [List.chain'_append]
    refine ⟨hdw, List.chain'_singleton nb, ?_⟩
    intro x hx y hy
    have hyx : nb = y := by simpa using hy
    have hx2 : last = x := by
      rw [hdl] at hx
      simpa using hx
    rw [← hyx, ← hx2]
    exact hedge
  · rw [List.length_append, hdropcons]
    simp
  · rw [List.head?_append, List.getLast?_concat, hdropcons]
    simp

theorem dfs_fold_sound (g : Graph) (fuel : Nat)
    (hVisit : ∀ (node : String) (path : List String) (s : DfsState),
      IsWalk g (path ++ [node]) →
      (∀ c ∈ s.cycles, IsClosedWalk g c) →
      ∀ c ∈ (dfsVisit g fuel node path s).cycles, IsClosedWalk g c)
    (path : List String) (last : String)
    (hlast : path.getLast? = some last) (hwalk : IsWalk g path) :
    ∀ (nbs : List String) (s : DfsState),
      (∀ nb ∈ nbs, nb ∈ getAdj g last) →
      (∀ c ∈ s.cycles, IsClosedWalk g c) →
      ∀ c ∈ (nbs.foldl
          (fun s nb =>
            if nb ∈ s.visited then
              if nb ∈ s.recStack then
                if nb ∈ path then
                  { s with
                    cycles := s.cycles ++ [path.drop (path.indexOf nb) ++ [nb]] }
                else s
              else s
            else dfsVisit g fuel nb path s)
          s).cycles,
        IsClosedWalk g c := by
  intro nbs
  induction nbs with
  | nil => intro s _ hs c hc; exact hs c hc
  | cons nb rest ih =>
    intro s hadj hs c hc
    rw [List.foldl_cons] at hc
    refine ih _ (fun x hx => hadj x (List.mem_cons_of_mem _ hx)) ?_ c hc
    by_cases h1 : nb ∈ s.visited
    · rw [if_pos h1]
      by_cases h2 : nb ∈ s.recStack
      · rw [if_pos h2]
        by_cases h3 : nb ∈ path
        · rw [if_pos h3]
          intro c' hc'
          rcases List.mem_append.mp hc' with h | h
          · exact hs c' h
          · rcases List.mem_singleton.mp h with rfl
            exact recorded_cycle_closed g path last nb hwalk hlast
              (hadj nb (List.mem_cons_self _ _)) h3
        · rw [if_neg h3]; exact hs
      · rw [if_neg h2]; exact hs
    · rw [if_neg h1]
      refine hVisit nb path s ?_ hs
      unfold IsWalk at hwalk ⊢
      rw [List.chain'_append]
      refine ⟨hwalk, List.chain'_singleton nb, ?_⟩
      intro x hx y hy
      have hyx : nb = y := by simpa using hy
      have hx2 : last = x := by rw [hlast] at hx; simpa using hx
      rw [← hyx, ← hx2]
      exact hadj nb (List.mem_cons_self _ _)

theorem dfsVisit_sound (g : Graph) :
    ∀ (fuel : Nat) (node : String) (path : List String) (s : DfsState),
      IsWalk g (path ++ [node]) →
      (∀ c ∈ s.cycles, IsClosedWalk g c) →
      ∀ c ∈ (dfsVisit g fuel node path s).cycles, IsClosedWalk g c := by
  intro fuel
  induction fuel with
  | zero => intro node path s _ hs c hc; exact hs c hc
  | succ f ihf =>
    intro node path s hwalk hs c hc
    unfold dfsVisit at hc
    exact dfs_fold_sound g f ihf (path ++ [node]) node
      (List.getLast?_concat path) hwalk (getAdj g node)
      ⟨node :: s.visited, node :: s.recStack, s.cycles⟩ (fun _ h => h) hs c hc

theorem detectCycles_sound (g : Graph) :
    ∀ c ∈ detectCycles g, IsClosedWalk g c := by
  unfold detectCycles
  have hfold : ∀ (entries : List (String × List String)) (s : DfsState),
      (∀ c ∈ s.cycles, IsClosedWalk g c) →
      ∀ c ∈ (entries.foldl
          (fun (s : DfsState) p =>
            if p.1 ∈ s.visited then s
            else dfsVisit g (graphFuel g) p.1 [] s)
          s).cycles,
        IsClosedWalk g c := by
    intro entries
    induction entries with
    | nil => intro s hs c hc; exact hs c hc
    | cons p ps ih =>
      intro s hs c hc
      rw [List.foldl_cons] at hc
      refine ih _ ?_ c hc
      by_cases h : p.1 ∈ s.visited
      · rw [if_pos h]; exact hs
      · rw [if_neg h]
        refine dfsVisit_sound g _ p.1 [] s ?_ hs
        unfold IsWalk
        exact List.chain'_singleton _
  exact hfold g ⟨[], [], []⟩ (fun c hc => absurd hc (List.not_mem_nil c))

/-- Claim C4: cycle detection returns the empty list on every acyclic
graph, and on the three-node cycle A→B→C→A it returns exactly one cycle
containing A, B and C in path order, whichever node the traversal starts
from (the three rotations of the adjacency list below start the DFS at A,
B and C respectively). -/
theorem detectCycles_spec :
    (∀ g : Graph, AcyclicGraph g → detectCycles g = []) ∧
    detectCycles [("A", ["B"]), ("B", ["C"]), ("C", ["A"])] =
      [["A", "B", "C", "A"]] ∧
    detectCycles [("B", ["C"]), ("C", ["A"]), ("A", ["B"])] =
      [["B", "C", "A", "B"]] ∧
    detectCycles [("C", ["A"]), ("A", ["B"]), ("B", ["C"])] =
      [["C", "A", "B", "C"]] := by
  refine ⟨?_, by decide, by decide, by decide⟩
  intro g hg
  rw [List.eq_nil_iff_forall_not_mem]
  intro c hc
  exact hg c (detectCycles_sound g c hc)

theorem acyclic_singleton : AcyclicGraph [("A", ([] : List String))] := by
  intro w hw
  obtain ⟨hwalk, hlen, _⟩ := hw
  match w, hlen with
  | a :: b :: t, _ =>
    have hedge : b ∈ getAdj [("A", ([] : List String))] a := by
      unfold IsWalk at hwalk
      exact (List.chain'_cons.mp hwalk).1
    have hadj : getAdj [("A", ([] : List String))] a = [] := by
      unfold getAdj
      by_cases h : "A" = a <;> simp [List.find?, h]
    rw [hadj] at hedge
    exact absurd hedge (List.not_mem_nil b)

/-- Witness for C4 at the edgeless one-node graph. -/
theorem detectCycles_spec_witness :
    AcyclicGraph [("A", ([] : List String))] ∧
      detectCycles [("A", ([] : List String))] = [] :=
  ⟨acyclic_singleton, detectCycles_spec.1 _ acyclic_singleton⟩

/-! ## C6 — each non-exempt similar pair is reported exactly once -/

/-- Declared identifiers never contain the `|` that builds `seenPairs`
keys: the extractor only produces `\w+` (or `[a-zA-Z0-9_$]+`) names. -/
def noBar (s : String) : Prop := '|' ∉ s.data

instance (s : String) : Decidable (noBar s) :=
  inferInstanceAs (Decidable ('|' ∉ s.data))

/-- The ordered pair carries the unordered pair `{a, b}`. -/
def matchPairB (a b : String) (pq : String × String) : Bool :=
  (pq.1 == a && pq.2 == b) || (pq.1 == b && pq.2 == a)

/-- The `similar` triple names the unordered pair `{a, b}`. -/
def matchTriple (a b : String) (t : String × String × ℚ) : Bool :=
  (t.1 == a && t.2.1 == b) || (t.1 == b && t.2.1 == a)

theorem mem_dedupFirst {a : String} :
    ∀ {l : List String}, a ∈ dedupFirst l ↔ a ∈ l := by
  intro l
  induction l with
  | nil => simp [dedupFirst]
  | cons x xs ih =>
    simp only [dedupFirst, List.mem_cons, List.mem_filter, ih]
    constructor
    · rintro (rfl | ⟨h, _⟩)
      · exact Or.inl rfl
      · exact Or.inr h
    · rintro (rfl | h)
      · exact Or.inl rfl
      · by_cases hx : a = x
        · exact Or.inl hx
        · exact Or.inr ⟨h, by simpa using hx⟩

theorem dedupFirst_nodup : ∀ l : List String, (dedupFirst l).Nodup := by
  intro l
  induction l with
  | nil => exact List.nodup_nil
  | cons x xs ih =>
    refine List.Nodup.cons ?_ (List.Nodup.filter _ ih)
    intro hx
    have := (List.mem_filter.mp hx).2
    simp at this

theorem orderedPairs_comp_mem {α : Type} {pq : α × α} :
    ∀ {l : List α}, pq ∈ orderedPairs l → pq.1 ∈ l ∧ pq.2 ∈ l := by
  intro l
  induction l with
  | nil => intro h; cases h
  | cons x xs ih =>
    intro h
    rcases List.mem_append.mp h with h1 | h2
    · rcases List.mem_map.mp h1 with ⟨y, hy, rfl⟩
      exact ⟨List.mem_cons_self _ _, List.mem_cons_of_mem _ hy⟩
    · obtain ⟨h1, h2⟩ := ih h2
      exact ⟨List.mem_cons_of_mem _ h1, List.mem_cons_of_mem _ h2⟩

theorem countP_orderedPairs_left_notmem {a b : String} {l : List String}
    (ha : a ∉ l) :
    (orderedPairs l).countP (matchPairB a b) = 0 := by
  rw [List.countP_eq_zero]
  intro pq hpq hmatch
  obtain ⟨h1, h2⟩ := orderedPairs_comp_mem hpq
  rcases Bool.or_eq_true_iff.mp hmatch with h | h
  · obtain ⟨ha', _⟩ := Bool.and_eq_true_iff.mp h
    exact ha (beq_iff_eq.mp ha' ▸ h1)
  · obtain ⟨_, ha'⟩ := Bool.and_eq_true_iff.mp h
    exact ha (beq_iff_eq.mp ha' ▸ h2)

theorem countP_orderedPairs_right_notmem {a b : String} {l : List String}
    (hb : b ∉ l) :
    (orderedPairs l).countP (matchPairB a b) = 0 := by
  rw [List.countP_eq_zero]
  intro pq hpq hmatch
  obtain ⟨h1, h2⟩ := orderedPairs_comp_mem hpq
  rcases Bool.or_eq_true_iff.mp hmatch with h | h
  · obtain ⟨_, hb'⟩ := Bool.and_eq_true_iff.mp h
    exact hb (beq_iff_eq.mp hb' ▸ h2)
  · obtain ⟨hb', _⟩ := Bool.and_eq_true_iff.mp h
    exact hb (beq_iff_eq.mp hb' ▸ h1)

theorem countP_orderedPairs_one {a b : String} (hab : a ≠ b) :
    ∀ {l : List String}, l.Nodup → a ∈ l → b ∈ l →
      (orderedPairs l).countP (matchPairB a b) = 1 := by
  intro l
  induction l with
  | nil => intro _ ha; cases ha
  | cons x xs ih =>
    intro hnd ha hb
    have hndx := List.nodup_cons.mp hnd
    simp only [orderedPairs, List.countP_append]
    rcases List.mem_cons.mp ha with rfl | ha'
    · have hbxs : b ∈ xs := by
        rcases List.mem_cons.mp hb with rfl | h
        · exact absurd rfl hab
        · exact h
      have hmap : (xs.map (fun y => (a, y))).countP (matchPairB a b) =
          xs.countP (fun y => y == b) := by
        rw [List.countP_map]
        congr 1
        funext y
        simp [matchPairB, Function.comp, hab]
      rw [hmap, countP_orderedPairs_left_notmem hndx.1]
      have : xs.countP (fun y => y == b) = xs.count b := rfl
      rw [this, List.count_eq_one_of_mem hndx.2 hbxs]
    · rcases List.mem_cons.mp hb with rfl | hb'
      · have haxs : a ∈ xs := ha'
        have hmap : (xs.map (fun y => (b, y))).countP (matchPairB a b) =
            xs.countP (fun y => y == a) := by
          rw [List.countP_map]
          congr 1
          funext y
          simp [matchPairB, Function.comp, Ne.symm hab]
        rw [hmap, countP_orderedPairs_right_notmem hndx.1]
        have : xs.countP (fun y => y == a) = xs.count a := rfl
        rw [this, List.count_eq_one_of_mem hndx.2 haxs]
      · have hxa : x ≠ a := fun h => hndx.1 (h ▸ ha')
        have hxb : x ≠ b := fun h => hndx.1 (h ▸ hb')
        have hmap : (xs.map (fun y => (x, y))).countP (matchPairB a b) = 0 := by
          rw [List.countP_eq_zero]
          intro pq hpq hmatch
          rcases List.mem_map.mp hpq with ⟨y, _, rfl⟩
          rcases Bool.or_eq_true_iff.mp hmatch with h | h
          · exact hxa (beq_iff_eq.mp (Bool.and_eq_true_iff.mp h).1)
          · exact hxb (beq_iff_eq.mp (Bool.and_eq_true_iff.mp h).1)
        rw [hmap, ih hndx.2 ha' hb']

theorem append_bar_inj :
    ∀ (l1 : List Char) {l2 : List Char} (l3 : List Char) {l4 : List Char},
      '|' ∉ l1 → '|' ∉ l3 → l1 ++ '|' :: l2 = l3 ++ '|' :: l4 →
      l1 = l3 ∧ l2 = l4 := by
  intro l1
  induction l1 with
  | nil =>
    intro l2 l3 l4 _ h3 h
    cases l3 with
    | nil => simpa using h
    | cons c t =>
      simp only [List.nil_append, List.cons_append, List.cons.injEq] at h
      exact absurd (h.1 ▸ List.mem_cons_self '|' t) (fun hm => h3 hm)
  | cons c t ih =>
    intro l2 l3 l4 h1 h3 h
    cases l3 with
    | nil =>
      simp only [List.cons_append, List.nil_append, List.cons.injEq] at h
      exact absurd (h.1 ▸ List.mem_cons_self '|' t) (fun hm => h1 (h.1 ▸ hm))
    | cons d u =>
      simp only [List.cons_append, List.cons.injEq] at h
      obtain ⟨rfl, htail⟩ := h
      have := ih u (fun hm => h1 (List.mem_cons_of_mem _ hm))
        (fun hm => h3 (List.mem_cons_of_mem _ hm)) htail
      exact ⟨by rw [this.1], this.2⟩

theorem pairKey_data (n1 n2 : String) :
    (n1 ++ "|" ++ n2).data = n1.data ++ '|' :: n2.data := by
  simp [String.data_append]

theorem pairKey_inj {p q a b : String} (hp : noBar p) (hq : noBar q)
    (ha : noBar a) (hb : noBar b) (h : pairKey p q = pairKey a b) :
    (p = a ∧ q = b) ∨ (p = b ∧ q = a) := by
  unfold pairKey at h
  have core : ∀ {x y u v : String}, noBar x → noBar u →
      x ++ "|" ++ y = u ++ "|" ++ v → x = u ∧ y = v := by
    intro x y u v hx hu hxy
    have hd : x.data ++ '|' :: y.data = u.data ++ '|' :: v.data := by
      rw [← pairKey_data, ← pairKey_data, hxy]
    obtain ⟨h1, h2⟩ := append_bar_inj x.data u.data hx hu hd
    exact ⟨String.ext h1, String.ext h2⟩
  by_cases h1 : p ≤ q <;> by_cases h2 : a ≤ b
  · rw [if_pos h1, if_pos h2] at h
    exact Or.inl (core hp ha h)
  · rw [if_pos h1, if_neg h2] at h
    exact Or.inr (core hp hb h)
  · rw [if_neg h1, if_pos h2] at h
    obtain ⟨hl, hr⟩ := core hq ha h
    exact Or.inr ⟨hr, hl⟩
  · rw [if_neg h1, if_neg h2] at h
    obtain ⟨hl, hr⟩ := core hq hb h
    exact Or.inl ⟨hr, hl⟩

theorem pairKey_comm (a b : String) : pairKey a b = pairKey b a := by
  unfold pairKey
  rcases le_total a b with h | h
  · rw [if_pos h]
    by_cases h2 : b ≤ a
    · rw [if_pos h2, le_antisymm h h2]
    · rw [if_neg h2]
  · rw [if_pos h]
    by_cases h2 : a ≤ b
    · rw [if_pos h2, le_antisymm h2 h]
    · rw [if_neg h2]

/-- Case analysis on one `findSimilarNames` loop iteration: the `seenPairs`
set either is unchanged or gains the processed pair's key, and the
`similar` array either is unchanged or gains the processed pair's
triple — and a triple is only appended together with its key when the
ratio condition holds and the key is fresh. -/
theorem fsnStep_cases (θ : ℚ) (st : List String × List (String × String × ℚ))
    (pq : String × String) :
    fsnStep θ st pq = st ∨
      (pq.1 ≠ pq.2 ∧ pairKey pq.1 pq.2 ∉ st.1 ∧
        (θ ≤ similarityRatio (jsToLower pq.1) (jsToLower pq.2) ∧
          similarityRatio (jsToLower pq.1) (jsToLower pq.2) < 1) ∧
        fsnStep θ st pq =
          (pairKey pq.1 pq.2 :: st.1,
            st.2 ++ [(pq.1, pq.2,
              similarityRatio (jsToLower pq.1) (jsToLower pq.2))])) := by
  unfold fsnStep
  by_cases h1 : pq.1 = pq.2
  · rw [if_pos h1]; exact Or.inl rfl
  · rw [if_neg h1]
    by_cases h2 : pairKey pq.1 pq.2 ∈ st.1
    · rw [if_pos h2]; exact Or.inl rfl
    · rw [if_neg h2]
      by_cases h3 : θ ≤ similarityRatio (jsToLower pq.1) (jsToLower pq.2) ∧
          similarityRatio (jsToLower pq.1) (jsToLower pq.2) < 1
      · rw [if_pos h3]
        exact Or.inr ⟨h1, h2, h3, rfl⟩
      · rw [if_neg h3]; exact Or.inl rfl

theorem matchTriple_of_pair (a b : String) (pq : String × String) (r : ℚ) :
    matchTriple a b (pq.1, pq.2, r) = matchPairB a b pq := rfl

theorem fsn_fold_nomatch (θ : ℚ) (a b : String) :
    ∀ (P : List (String × String))
      (st : List String × List (String × String × ℚ)),
      (∀ pq ∈ P, matchPairB a b pq = false) →
      ((P.foldl (fsnStep θ) st).2.countP (matchTriple a b)) =
        st.2.countP (matchTriple a b) := by
  intro P
  induction P with
  | nil => intro st _; rfl
  | cons pq rest ih =>
    intro st hP
    rw [List.foldl_cons]
    rw [ih _ (fun x hx => hP x (List.mem_cons_of_mem _ hx))]
    rcases fsnStep_cases θ st pq with h | ⟨_, _, _, h⟩
    · rw [h]
    · rw [h]
      simp only [List.countP_append]
      rw [show ([(pq.1, pq.2,
          similarityRatio (jsToLower pq.1) (jsToLower pq.2))].countP
            (matchTriple a b)) = 0 from ?_]
      · rfl
      · rw [List.countP_eq_zero]
        intro t ht
        rcases List.mem_singleton.mp ht with rfl
        rw [matchTriple_of_pair, hP pq (List.mem_cons_self _ _)]
        exact Bool.false_ne_true

theorem fsn_fold_cond_false (θ : ℚ) (a b : String)
    (h1 : ¬(θ ≤ similarityRatio (jsToLower a) (jsToLower b) ∧
      similarityRatio (jsToLower a) (jsToLower b) < 1))
    (h2 : ¬(θ ≤ similarityRatio (jsToLower b) (jsToLower a) ∧
      similarityRatio (jsToLower b) (jsToLower a) < 1)) :
    ∀ (P : List (String × String))
      (st : List String × List (String × String × ℚ)),
      st.2.countP (matchTriple a b) = 0 →
      ((P.foldl (fsnStep θ) st).2.countP (matchTriple a b)) = 0 := by
  intro P
  induction P with
  | nil => intro st h; exact h
  | cons pq rest ih =>
    intro st hst
    rw [List.foldl_cons]
    refine ih _ ?_
    rcases fsnStep_cases θ st pq with h | ⟨_, _, hcond, h⟩
    · rw [h]; exact hst
    · rw [h]
      simp only [List.countP_append, hst]
      rw [List.countP_eq_zero.mpr ?_]
      intro t ht
      rcases List.mem_singleton.mp ht with rfl
      rw [matchTriple_of_pair]
      intro hmatch
      rcases Bool.or_eq_true_iff.mp hmatch with hm | hm
      · obtain ⟨hma, hmb⟩ := Bool.and_eq_true_iff.mp hm
        rw [beq_iff_eq.mp hma, beq_iff_eq.mp hmb] at hcond
        exact h1 hcond
      · obtain ⟨hma, hmb⟩ := Bool.and_eq_true_iff.mp hm
        rw [beq_iff_eq.mp hma, beq_iff_eq.mp hmb] at hcond
        exact h2 hcond

theorem fsn_fold_main (θ : ℚ) (a b : String) (hab : a ≠ b)
    (hna : noBar a) (hnb : noBar b)
    (hc1 : θ ≤ similarityRatio (jsToLower a) (jsToLower b) ∧
      similarityRatio (jsToLower a) (jsToLower b) < 1)
    (hc2 : θ ≤ similarityRatio (jsToLower b) (jsToLower a) ∧
      similarityRatio (jsToLower b) (jsToLower a) < 1) :
    ∀ (P : List (String × String))
      (st : List String × List (String × String × ℚ)),
      (∀ pq ∈ P, noBar pq.1 ∧ noBar pq.2) →
      P.countP (matchPairB a b) = 1 →
      st.2.countP (matchTriple a b) = 0 →
      pairKey a b ∉ st.1 →
      ((P.foldl (fsnStep θ) st).2.countP (matchTriple a b)) = 1 := by
  intro P
  induction P with
  | nil =>
    intro st _ hcount
    simp at hcount
  | cons pq rest ih =>
    intro st hP hcount hst hkey
    rw [List.foldl_cons]
    by_cases hm : matchPairB a b pq = true
    · -- this iteration processes the pair {a, b}
      have hrest : rest.countP (matchPairB a b) = 0 := by
        rw [List.countP_cons, hm] at hcount
        simpa using hcount
      rw [fsn_fold_nomatch θ a b rest _
        (fun x hx => by simpa using List.countP_eq_zero.mp hrest x hx)]
      -- identify the orientation
      have hori : (pq.1 = a ∧ pq.2 = b) ∨ (pq.1 = b ∧ pq.2 = a) := by
        rcases Bool.or_eq_true_iff.mp hm with hmm | hmm
        · obtain ⟨x, y⟩ := Bool.and_eq_true_iff.mp hmm
          exact Or.inl ⟨beq_iff_eq.mp x, beq_iff_eq.mp y⟩
        · obtain ⟨x, y⟩ := Bool.and_eq_true_iff.mp hmm
          exact Or.inr ⟨beq_iff_eq.mp x, beq_iff_eq.mp y⟩
      have hne : pq.1 ≠ pq.2 := by
        rcases hori with ⟨h1, h2⟩ | ⟨h1, h2⟩
        · rw [h1, h2]; exact hab
        · rw [h1, h2]; exact (Ne.symm hab)
      have hkeypq : pairKey pq.1 pq.2 = pairKey a b := by
        rcases hori with ⟨h1, h2⟩ | ⟨h1, h2⟩
        · rw [h1, h2]
        · rw [h1, h2]; exact pairKey_comm b a
      have hcond : θ ≤ similarityRatio (jsToLower pq.1) (jsToLower pq.2) ∧
          similarityRatio (jsToLower pq.1) (jsToLower pq.2) < 1 := by
        rcases hori with ⟨h1, h2⟩ | ⟨h1, h2⟩
        · rw [h1, h2]; exact hc1
        · rw [h1, h2]; exact hc2
      have hstep : fsnStep θ st pq =
          (pairKey pq.1 pq.2 :: st.1,
            st.2 ++ [(pq.1, pq.2,
              similarityRatio (jsToLower pq.1) (jsToLower pq.2))]) := by
        unfold fsnStep
        rw [if_neg hne, if_neg (hkeypq ▸ hkey), if_pos hcond]
      rw [hstep]
      simp only [List.countP_append, hst]
      rw [List.countP_cons, List.countP_nil, matchTriple_of_pair, hm]
      simp
    · -- a different pair: the state stays clean and we recurse
      have hm' : matchPairB a b pq = false := by
        cases h : matchPairB a b pq
        · rfl
        · exact absurd h hm
      have hcount' : rest.countP (matchPairB a b) = 1 := by
        rw [List.countP_cons, hm'] at hcount
        simpa using hcount
      refine ih _ (fun x hx => hP x (List.mem_cons_of_mem _ hx)) hcount' ?_ ?_
      · rcases fsnStep_cases θ st pq with h | ⟨_, _, _, h⟩
        · rw [h]; exact hst
        · rw [h]
          simp only [List.countP_append, hst]
          rw [List.countP_eq_zero.mpr ?_]
          intro t ht
          rcases List.mem_singleton.mp ht with rfl
          rw [matchTriple_of_pair, hm']
          exact Bool.false_ne_true
      · rcases fsnStep_cases θ st pq with h | ⟨_, _, _, h⟩
        · rw [h]; exact hkey
        · rw [h]
          intro hmem
          rcases List.mem_cons.mp hmem with heq | hmem2
          · have := pairKey_inj (hP pq (List.mem_cons_self _ _)).1
              (hP pq (List.mem_cons_self _ _)).2 hna hnb heq.symm
            rcases this with ⟨h1, h2⟩ | ⟨h1, h2⟩
            · rw [matchPairB, h1, h2] at hm'
              simp at hm'
            · rw [matchPairB, h1, h2] at hm'
              simp at hm'
          · exact hkey hmem2

theorem findSimilarNames_count_one (names : List String) (θ : ℚ)
    (a b : String) (hbar : ∀ n ∈ names, noBar n) (ha : a ∈ names)
    (hb : b ∈ names) (hab : a ≠ b)
    (hc1 : θ ≤ similarityRatio (jsToLower a) (jsToLower b) ∧
      similarityRatio (jsToLower a) (jsToLower b) < 1)
    (hc2 : θ ≤ similarityRatio (jsToLower b) (jsToLower a) ∧
      similarityRatio (jsToLower b) (jsToLower a) < 1) :
    (findSimilarNames names θ).countP (matchTriple a b) = 1 := by
  unfold findSimilarNames
  refine fsn_fold_main θ a b hab (hbar a ha) (hbar b hb) hc1 hc2
    (orderedPairs (dedupFirst names)) ([], []) ?_ ?_ rfl (List.not_mem_nil _)
  · intro pq hpq
    obtain ⟨h1, h2⟩ := orderedPairs_comp_mem hpq
    exact ⟨hbar _ (mem_dedupFirst.mp h1), hbar _ (mem_dedupFirst.mp h2)⟩
  · exact countP_orderedPairs_one hab (dedupFirst_nodup names)
      (mem_dedupFirst.mpr ha) (mem_dedupFirst.mpr hb)

theorem findSimilarNames_count_zero (names : List String) (θ : ℚ)
    (a b : String)
    (h1 : ¬(θ ≤ similarityRatio (jsToLower a) (jsToLower b) ∧
      similarityRatio (jsToLower a) (jsToLower b) < 1))
    (h2 : ¬(θ ≤ similarityRatio (jsToLower b) (jsToLower a) ∧
      similarityRatio (jsToLower b) (jsToLower a) < 1)) :
    (findSimilarNames names θ).countP (matchTriple a b) = 0 := by
  unfold findSimilarNames
  exact fsn_fold_cond_false θ a b h1 h2 (orderedPairs (dedupFirst names))
    ([], []) rfl

/-- Claim C6: over the declared names (which never contain `|`), any two
distinct names whose case-insensitive similarity is at or above 0.85 and
strictly below 1 and which no recognized pairing exempts give rise to
exactly one reported similar pair — never both orientations — and a pair
with similarity exactly 1 is never reported as similar at all. -/
theorem similar_pair_reported_once (contracts : List ParsedContract)
    (primitives : SharedPrimitives) (a b : String)
    (hbar : ∀ n ∈ (allTypeNameEntries contracts primitives).map
      (fun e => e.name), noBar n)
    (ha : a ∈ (allTypeNameEntries contracts primitives).map (fun e => e.name))
    (hb : b ∈ (allTypeNameEntries contracts primitives).map (fun e => e.name))
    (hab : a ≠ b) :
    ((85 / 100 ≤ similarityRatio (jsToLower a) (jsToLower b) ∧
        similarityRatio (jsToLower a) (jsToLower b) < 1 ∧
        85 / 100 ≤ similarityRatio (jsToLower b) (jsToLower a) ∧
        similarityRatio (jsToLower b) (jsToLower a) < 1 ∧
        isExpectedPair a b = false ∧ isExpectedPair b a = false) →
      (reportedSimilarPairs contracts primitives).countP (matchTriple a b) =
        1) ∧
    ((similarityRatio (jsToLower a) (jsToLower b) = 1 ∧
        similarityRatio (jsToLower b) (jsToLower a) = 1) →
      (findSimilarNames
          ((allTypeNameEntries contracts primitives).map (fun e => e.name))
          (85 / 100)).countP (matchTriple a b) = 0) := by
  constructor
  · rintro ⟨hle1, hlt1, hle2, hlt2, hexp1, hexp2⟩
    unfold reportedSimilarPairs
    rw [List.countP_filter]
    have hpred : (fun t : String × String × ℚ =>
        matchTriple a b t && !isExpectedPair t.1 t.2.1) = matchTriple a b := by
      funext t
      cases hmt : matchTriple a b t
      · rw [Bool.false_and]
      · have hori : (t.1 = a ∧ t.2.1 = b) ∨ (t.1 = b ∧ t.2.1 = a) := by
          rcases Bool.or_eq_true_iff.mp hmt with hmm | hmm
          · obtain ⟨x, y⟩ := Bool.and_eq_true_iff.mp hmm
            exact Or.inl ⟨beq_iff_eq.mp x, beq_iff_eq.mp y⟩
          · obtain ⟨x, y⟩ := Bool.and_eq_true_iff.mp hmm
            exact Or.inr ⟨beq_iff_eq.mp x, beq_iff_eq.mp y⟩
        have hexp : isExpectedPair t.1 t.2.1 = false := by
          rcases hori with ⟨h1, h2⟩ | ⟨h1, h2⟩
          · rw [h1, h2]; exact hexp1
          · rw [h1, h2]; exact hexp2
        rw [hexp]
        rfl
    rw [hpred]
    exact findSimilarNames_count_one _ _ a b hbar ha hb hab ⟨hle1, hlt1⟩
      ⟨hle2, hlt2⟩
  · rintro ⟨he1, he2⟩
    refine findSimilarNames_count_zero _ _ a b ?_ ?_
    · rw [he1]
      intro h
      exact absurd h.2 (lt_irrefl 1)
    · rw [he2]
      intro h
      exact absurd h.2 (lt_irrefl 1)

/-- `Customer1` declared by the shared vocabulary. -/
def tyCustomer1 : TypeDefinition :=
  { name := "Customer1", kind := TypeKind.interface, properties := []
    rawContent := "", line := 1 }

/-- `Customer2` declared by the shared vocabulary. -/
def tyCustomer2 : TypeDefinition :=
  { name := "Customer2", kind := TypeKind.interface, properties := []
    rawContent := "", line := 2 }

/-- `FooBar` declared by the shared vocabulary. -/
def tyFooBarMixed : TypeDefinition :=
  { name := "FooBar", kind := TypeKind.interface, properties := []
    rawContent := "", line := 3 }

/-- `FOOBAR`, an exact case-insensitive duplicate of `FooBar`. -/
def tyFooBarUpper : TypeDefinition :=
  { name := "FOOBAR", kind := TypeKind.interface, properties := []
    rawContent := "", line := 4 }

def primitivesCustomers : SharedPrimitives :=
  { types := [("Customer1", tyCustomer1), ("Customer2", tyCustomer2),
      ("FooBar", tyFooBarMixed), ("FOOBAR", tyFooBarUpper)]
    filePath := "p.md" }

/-- Witness for C6: `Customer1` and `Customer2` (similarity 8/9 ≈ 0.889,
no exemption) are reported exactly once, while the case-insensitive exact
duplicates `FooBar` and `FOOBAR` (similarity 1) are never treated as a
similar pair. -/
theorem similar_pair_reported_once_witness :
    (reportedSimilarPairs [] primitivesCustomers).countP
        (matchTriple "Customer1" "Customer2") = 1 ∧
      (findSimilarNames
          ((allTypeNameEntries [] primitivesCustomers).map (fun e => e.name))
          (85 / 100)).countP (matchTriple "FooBar" "FOOBAR") = 0 := by
  have e1 : similarityRatio (jsToLower "Customer1") (jsToLower "Customer2") =
      1 - (1 : ℚ) / (9 : ℚ) :=
    similarityRatio_eval _ _ 1 9 (by decide) (by decide) (by decide)
  have e2 : similarityRatio (jsToLower "Customer2") (jsToLower "Customer1") =
      1 - (1 : ℚ) / (9 : ℚ) :=
    similarityRatio_eval _ _ 1 9 (by decide) (by decide) (by decide)
  have e3 : similarityRatio (jsToLower "FooBar") (jsToLower "FOOBAR") =
      1 - (0 : ℚ) / (6 : ℚ) :=
    similarityRatio_eval _ _ 0 6 (by decide) (by decide) (by decide)
  have e4 : similarityRatio (jsToLower "FOOBAR") (jsToLower "FooBar") =
      1 - (0 : ℚ) / (6 : ℚ) :=
    similarityRatio_eval _ _ 0 6 (by decide) (by decide) (by decide)
  constructor
  · exact (similar_pair_reported_once [] primitivesCustomers "Customer1"
        "Customer2" (by decide) (by decide) (by decide) (by decide)).1
      ⟨by rw [e1]; norm_num, by rw [e1]; norm_num, by rw [e2]; norm_num,
        by rw [e2]; norm_num, by decide, by decide⟩
  · exact (similar_pair_reported_once [] primitivesCustomers "FooBar"
        "FOOBAR" (by decide) (by decide) (by decide) (by decide)).2
      ⟨by rw [e3]; norm_num, by rw [e4]; norm_num⟩

end ContractVerifier
